import Mathlib

/-!
Verification of the ARM emulator core (emu.c, jazelle.c) against its
natural-language specification.  The C sources are shallowly embedded:
machine integers become `Nat` with explicit reductions modulo `2^32` /
`2^64` at the points where the C code truncates, the processor state
becomes an explicit record that is threaded through every operation, and
the `_Noreturn` fault handlers reached through `longjmp` are modelled as
an `Except` error carrying the identity of the handler that fired (the
handlers themselves are embedded separately as state transformers).
-/

/-! ## Machine-integer helpers -/

/-- Truncation to a 32-bit unsigned value, as performed by C `uint32_t` arithmetic. -/
def u32 (n : Nat) : Nat := n % 4294967296

/-- Truncation to a 64-bit unsigned value, as performed by C `uint64_t` arithmetic. -/
def u64 (n : Nat) : Nat := n % 18446744073709551616

/-- Wrapping 32-bit subtraction `a - b` on `uint32_t` values. -/
def sub32 (a b : Nat) : Nat := (a + (4294967296 - b % 4294967296)) % 4294967296

/-- Pointwise update of the register file (a plain function `Nat → Nat`). -/
def updR (r : Nat → Nat) (i v : Nat) : Nat → Nat := fun j => if j = i then v else r j

/-! ## Constants from arm.h / emu.h -/

def ARMV1 : Nat := 1
def ARMV2 : Nat := 2
def ARMV3 : Nat := 3
def ARMV4 : Nat := 4
def ARMV5 : Nat := 5
def ARMV6 : Nat := 6
def ARMV7 : Nat := 7
def ARMV8 : Nat := 8
def ARMV81 : Nat := 9
def ARMV82 : Nat := 10
def ARMV83 : Nat := 11
def ARMV9 : Nat := 12

def ISA_AARCH26 : Nat := 1
def ISA_AARCH32 : Nat := 2
def ISA_THUMB32 : Nat := 3
def ISA_JAZELLE : Nat := 4
def ISA_THUMBEE : Nat := 5
def ISA_AARCH64 : Nat := 6

/-- Feature bit positions from `arm_feature_t` (the enum starts at
`_FEATURE_PROFILE_TOP = 1`). -/
def FEATURE_SWP : Nat := 2
def FEATURE_ARM26 : Nat := 3
def FEATURE_ARM32 : Nat := 4
def FEATURE_MULL : Nat := 5
def FEATURE_THUMB : Nat := 6
def FEATURE_ENH_DSP : Nat := 7
def FEATURE_DSP_PAIR : Nat := 8
def FEATURE_JAZELLE : Nat := 9
def FEATURE_MULTIPROC : Nat := 10
def FEATURE_THUMB2 : Nat := 11
def FEATURE_SECURITY : Nat := 12
def FEATURE_VIRTUALIZATION : Nat := 13
def FEATURE_ARM64 : Nat := 14

def MODE_USR : Nat := 0
def MODE_FIQ : Nat := 1
def MODE_IRQ : Nat := 2
def MODE_SVC : Nat := 3
def MODE_MON : Nat := 6
def MODE_ABT : Nat := 7
def MODE_HYP : Nat := 10
def MODE_UND : Nat := 11
def MODE_SYS : Nat := 15

def PSTATE_RW_26 : Nat := 0
def PSTATE_RW_32 : Nat := 1
def PSTATE_RW_64 : Nat := 2

def PSTATE_JT_ARM : Nat := 0
def PSTATE_JT_THUMB : Nat := 1
def PSTATE_JT_JAZELLE : Nat := 2
def PSTATE_JT_THUMBEE : Nat := 3

/-- Register slot numbers from `regnum_t` in arm.h. -/
def R13_HYP : Nat := 15
def R14_IRQ : Nat := 16
def R13_IRQ : Nat := 17
def R14_SVC : Nat := 18
def R13_SVC : Nat := 19
def R14_ABT : Nat := 20
def R13_ABT : Nat := 21
def R14_UND : Nat := 22
def R13_UND : Nat := 23
def R8_FIQ : Nat := 24
def R9_FIQ : Nat := 25
def R10_FIQ : Nat := 26
def R11_FIQ : Nat := 27
def R12_FIQ : Nat := 28
def R13_FIQ : Nat := 29
def R14_FIQ : Nat := 30
def A64_LR : Nat := 30
def SP_EL0 : Nat := 31
def SP_EL1 : Nat := 32
def SP_EL2 : Nat := 33
def SP_EL3 : Nat := 34
def PC : Nat := 35
def R14_MON : Nat := 36
def R13_MON : Nat := 37
def ELR_EL1 : Nat := 38
def ELR_EL2 : Nat := 39
def ELR_EL3 : Nat := 40
def SPSR_EL1 : Nat := 41
def SPSR_EL2 : Nat := 42
def SPSR_EL3 : Nat := 43
def SPSR_ABT : Nat := 44
def SPSR_UND : Nat := 45
def SPSR_IRQ : Nat := 46
def SPSR_FIQ : Nat := 47
def REG_COUNT : Nat := 48
def ELR_HYP : Nat := ELR_EL2
def SPSR_SVC : Nat := SPSR_EL1
def SPSR_HYP : Nat := SPSR_EL2
def SPSR_MON : Nat := SPSR_EL3
def A32_SP : Nat := 13
def A32_LR : Nat := 14
def A32_PC_NUM : Nat := 15
def A64_SP : Nat := 31

/-- CPSR bit constants from emu.h. -/
def CPSR_MODE_MASK : Nat := 0x0000000F
def CPSR_A26_MODE_MASK : Nat := 0x00000003
def CPSR_M4 : Nat := 0x00000010
def CPSR_T : Nat := 0x00000020
def CPSR_F : Nat := 0x00000040
def CPSR_I : Nat := 0x00000080
def CPSR_A : Nat := 0x00000100
def CPSR_E : Nat := 0x00000200
def CPSR_D : Nat := 0x00000200
def CPSR_IT0_MASK : Nat := 0x06000000
def CPSR_IT0_SHIFT : Nat := 25
def CPSR_IT1_MASK : Nat := 0x0000FC00
def CPSR_IT1_SHIFT : Nat := 8
def CPSR_GE_MASK : Nat := 0x000F0000
def CPSR_GE_SHIFT : Nat := 16
def CPSR_IL : Nat := 0x00100000
def CPSR_SS : Nat := 0x00200000
def CPSR_PAN : Nat := 0x00400000
def CPSR_UAO : Nat := 0x00800000
def CPSR_J : Nat := 0x01000000
def CPSR_Q : Nat := 0x08000000
def CPSR_V : Nat := 0x10000000
def CPSR_C : Nat := 0x20000000
def CPSR_Z : Nat := 0x40000000
def CPSR_N : Nat := 0x80000000
def CPSR_SP : Nat := 0x00000001
def CPSR_EL_MASK : Nat := 0x0000000C
def CPSR_EL_SHIFT : Nat := 2
def CPSR_A26_F : Nat := 0x04000000
def CPSR_A26_I : Nat := 0x08000000
def CPSR_IT_MASK : Nat := 0x0600FC00

def JOSCR_FLAT_ARRAY : Nat := 0x20000000
def JAOLR_ELEMENT_OFF_MASK : Nat := 0x00000F00
def JAOLR_ELEMENT_OFF_SHIFT : Nat := 6
def JAOLR_LENGTH_OFF_MASK : Nat := 0x0000F000
def JAOLR_LENGTH_OFF_SHIFT : Nat := 10
def JAOLR_LENGTH_SUB : Nat := 0x00010000
def JAOLR_LENSHIFT_MASK : Nat := 0x000E0000
def JAOLR_LENSHIFT_SHIFT : Nat := 17

def SCTLR_A : Nat := 2
def SCTLR_B : Nat := 128
def SCTLR_P : Nat := 16
def SCTLR_D : Nat := 32
def SCTLR_V : Nat := 8192
def SCTLR_U : Nat := 4194304
def SCTLR_SPAN : Nat := 8388608
def SCTLR_E0E : Nat := 16777216
def SCTLR_EE : Nat := 33554432
def SCTLR_TE : Nat := 1073741824

def SCR_EL3_RW : Nat := 1024
def HCR_EL2_RW : Nat := 2147483648
def HCR_EL2_E2H : Nat := 17179869184
def HCR_EL2_TGE : Nat := 134217728

def ARM_ENDIAN_LITTLE : Nat := 0
def ARM_ENDIAN_BIG : Nat := 1
def ARM_ENDIAN_SWAPPED : Nat := 2

def A32_VECTOR_RESET : Nat := 0x00
def A32_VECTOR_UNDEFINED : Nat := 0x04
def A32_VECTOR_SWI : Nat := 0x08
def A32_VECTOR_PREFETCH_ABORT : Nat := 0x0C
def A32_VECTOR_DATA_ABORT : Nat := 0x10
def A32_VECTOR_ADDRESS : Nat := 0x14
def A32_VECTOR_IRQ : Nat := 0x18
def A32_VECTOR_FIQ : Nat := 0x1C
def A64_VECTOR_SYNCHRONOUS : Nat := 0x000

def J32_EXCEPTION_NULLPTR : Nat := 0x100
def J32_EXCEPTION_OUT_OF_BOUNDS : Nat := 0x101

/-! ## Result codes and trap identities -/

/-- The `arm_emu_result_t` enumeration from emu.h. -/
inductive arm_emu_result_t where
  | ok
  | reset
  | svc
  | undefined
  | prefetch_abort
  | data_abort
  | address26
  | irq
  | fiq
  | breakpoint
  | unaligned
  | unaligned_pc
  | unaligned_sp
  | serror
  | smc
  | hvc
  | software_step
  | jazelle_undefined
  | jazelle_nullptr
  | jazelle_out_of_bounds
  | jazelle_disabled
  | jazelle_invalid
  | jazelle_prefetch_abort
  | thumbee_out_of_bounds
  | thumbee_nullptr
  deriving DecidableEq

/-- Identity of the `_Noreturn` fault handler that a primitive invoked.
In the C source these handlers end the current `step` through `longjmp`;
the shallow embedding surfaces them as an `Except` error at the point of
invocation, and the handlers themselves (`arm_undefined`,
`arm_break_emulation`, `a32_exception`, `a64_exception`) are embedded
separately as state transformers. -/
inductive Interrupt where
  | unalignedTrap
  | dataAbortTrap
  | prefetchAbortTrap
  | address26Trap
  | thumbeeNullptrTrap
  | jazelleBreak (index : Nat)
  deriving DecidableEq

/-! ## Processor state -/

/-- The `arm_pstate_t` bitfield record.  Every field is kept as a `Nat`;
writes in the embedded code reduce the written value exactly where the C
bitfield width would truncate it. -/
structure arm_pstate_t where
  rw : Nat
  mode : Nat
  f : Nat
  i : Nat
  jt : Nat
  q : Nat
  a : Nat
  ge : Nat
  e : Nat
  it : Nat
  sp : Nat
  el : Nat
  d : Nat
  il : Nat
  ss : Nat
  pan : Nat
  uao : Nat
  v : Nat
  c : Nat
  z : Nat
  n : Nat

/-- Model of the external `memory_interface_t`: a byte store together
with a per-byte success predicate (the C interface returns `false` to
signal a fault; `valid a p` says whether the access to byte `a` with
privileged flag `p` succeeds). -/
structure memory_interface_t where
  bytes : Nat → Nat
  valid : Nat → Bool → Bool

/-- The `arm_state_t` processor state restricted to the fields the
embedded operations read or write (the FP banks and coprocessor table are
not needed by any claim). -/
structure arm_state_t where
  version : Nat
  features : Nat
  supported_isas : Nat
  lowest_64bit_only_el : Nat
  el2_supported : Bool
  el3_supported : Bool
  capture_breaks : Bool
  result : arm_emu_result_t
  r : Nat → Nat
  old_pc : Nat
  pstate : arm_pstate_t
  exclusive_procid : Nat
  exclusive_start : Nat
  exclusive_end : Nat
  teehbr : Nat
  jidr : Nat
  joscr : Nat
  jmcr : Nat
  jaolr : Nat
  sctlr_el1 : Nat
  sctlr_el2 : Nat
  sctlr_el3 : Nat
  scr_el3 : Nat
  hcr_el2 : Nat
  vbar_el1 : Nat
  vbar_el2 : Nat
  vbar_el3 : Nat
  memory : memory_interface_t

/-! ## ISA helpers (emu.c) -/

/-- From emu.c `is_supported_isa`. -/
def is_supported_isa (s : arm_state_t) (isa : Nat) : Bool :=
  if isa = ISA_AARCH26 then s.features.testBit FEATURE_ARM26
  else if isa = ISA_AARCH32 then s.features.testBit FEATURE_ARM32
  else if isa = ISA_THUMB32 then s.features.testBit FEATURE_THUMB
  else if isa = ISA_JAZELLE then s.features.testBit FEATURE_JAZELLE
  else if isa = ISA_THUMBEE then s.features.testBit FEATURE_THUMB && s.version = ARMV7
  else if isa = ISA_AARCH64 then s.features.testBit FEATURE_ARM64
  else false

/-- From emu.c `arm_get_current_instruction_set`.  The unreachable
`assert(false)` default (a 2-bit field can not exceed 3) is mapped to 0. -/
def arm_get_current_instruction_set (s : arm_state_t) : Nat :=
  if s.pstate.rw = PSTATE_RW_26 then ISA_AARCH26
  else if s.pstate.rw = PSTATE_RW_32 then
    if s.pstate.jt = PSTATE_JT_ARM then ISA_AARCH32
    else if s.pstate.jt = PSTATE_JT_THUMB then ISA_THUMB32
    else if s.pstate.jt = PSTATE_JT_JAZELLE then ISA_JAZELLE
    else ISA_THUMBEE
  else if s.pstate.rw = PSTATE_RW_64 then ISA_AARCH64
  else 0

/-- From emu.c `a32_is_prog26`. -/
def a32_is_prog26 (s : arm_state_t) : Bool :=
  if !is_supported_isa s ISA_AARCH26 then false
  else if !is_supported_isa s ISA_AARCH32 then true
  else decide (s.version < ARMV8) && (s.sctlr_el1 &&& SCTLR_P = 0)

/-- From emu.c `a32_is_data26`. -/
def a32_is_data26 (s : arm_state_t) : Bool :=
  if !is_supported_isa s ISA_AARCH26 then false
  else if !is_supported_isa s ISA_AARCH32 then true
  else decide (s.version < ARMV8) && (s.sctlr_el1 &&& SCTLR_D = 0)

/-- From emu.c `a32_is_arm26`. -/
def a32_is_arm26 (s : arm_state_t) : Bool :=
  s.pstate.rw = PSTATE_RW_26

/-- From emu.c `arm_is_privileged_mode`.  The `assert(false)` default is
unreachable for a 2-bit `rw` field holding 0, 1 or 2; the value 3 is
mapped to the 64-bit branch. -/
def arm_is_privileged_mode (s : arm_state_t) : Bool :=
  if s.pstate.rw = PSTATE_RW_26 || s.pstate.rw = PSTATE_RW_32 then
    s.pstate.mode != 0
  else
    s.pstate.el != 0

/-- From emu.c `a32_get_instruction_endianness`. -/
def a32_get_instruction_endianness (s : arm_state_t) : Nat :=
  if s.sctlr_el1 &&& SCTLR_B ≠ 0 then ARM_ENDIAN_SWAPPED else ARM_ENDIAN_LITTLE

/-- From emu.c `a32_get_data_endianness`. -/
def a32_get_data_endianness (s : arm_state_t) : Nat :=
  if s.sctlr_el1 &&& SCTLR_B ≠ 0 then ARM_ENDIAN_SWAPPED
  else if s.pstate.e ≠ 0 then ARM_ENDIAN_BIG
  else ARM_ENDIAN_LITTLE

/-! ## Condition codes (claim C3) -/

/-- From emu.c `a32_check_condition` (lines 2107-2162), verbatim
including the comments naming each condition.  The `assert(false)`
default is unreachable because the scrutinee is `code & 0xF`. -/
def a32_check_condition (s : arm_state_t) (code : Nat) : Bool :=
  match code % 16 with
  | 0 => s.pstate.z != 0
  | 1 => s.pstate.z == 0
  | 2 => s.pstate.c != 0
  | 3 => s.pstate.c == 0
  | 4 => s.pstate.n != 0
  | 5 => s.pstate.n == 0
  | 6 => s.pstate.v != 0
  | 7 => s.pstate.v == 0
  | 8 => s.pstate.c != 0 && s.pstate.z == 0
  | 9 => s.pstate.c == 0 || s.pstate.z != 0
  | 10 => (s.pstate.n == 0) == (s.pstate.v == 0)
  | 11 => (s.pstate.n == 0) != (s.pstate.v == 0)
  | 12 => ((s.pstate.n == 0) == (s.pstate.v == 0)) && s.pstate.z != 0
  | 13 => ((s.pstate.n == 0) != (s.pstate.v == 0)) || s.pstate.z == 0
  | 14 => true
  | _ => false

/-! ## Count leading zeros (claim C6) -/

/-- From emu.c `clz32` (lines 3526-3535): scan from the top bit down,
returning the first position whose bit `31 - position` is set, else 32.
The `position < 32` loop guard is carried as the structurally decreasing
count of remaining iterations (`remaining = 32 - position` throughout),
so the function computes by kernel reduction. -/
def clz32_loop (op : Nat) : Nat → Nat → Nat
  | 0, position => position
  | remaining + 1, position =>
      if op &&& (1 <<< (31 - position)) ≠ 0 then position
      else clz32_loop op remaining (position + 1)

def clz32 (op : Nat) : Nat := clz32_loop op 32 0

/-- From emu.c `clz64` (lines 3537-3546).  The C test is
`op & (1 << (64 - position))`, where the literal `1` has 32-bit `int`
type, so the shift is undefined behavior in C for counts above 30; we
read the shift as the mathematical power `2 ^ (64 - position)` (the
reading most favorable to the code; the conjunction with the 64-bit `op`
discards bit 64).  Under any reading the tested bit is `64 - position`
rather than the `63 - position` that would mirror `clz32`. -/
def clz64_loop (op : Nat) : Nat → Nat → Nat
  | 0, position => position
  | remaining + 1, position =>
      if op &&& (1 <<< (64 - position)) ≠ 0 then position
      else clz64_loop op remaining (position + 1)

def clz64 (op : Nat) : Nat := clz64_loop op 64 0

/-! ## The mode-indexed register alias table (claim C5) -/

/-- From emu.c `a32_register_for_mode` (lines 349-373).  Every row is
introduced by a designated initializer `[mode * 16] = ...`, and the
`// ARMv1` block (lines 368-372) reuses the designators of the
USR/FIQ/IRQ/SVC rows: under C initializer semantics a later designator
for the same element overrides the earlier one, so that block replaces
rows 0-63 instead of appending a second bank.  The compiled array
therefore has 256 elements (largest initialized index 255), and its
single FIQ row is the one written in the ARMv1 block: R8 and R9 stay on
the shared slots 8/9 while R10-R14 are banked to `R10_FIQ`..`R14_FIQ`.
The USR/IRQ/SVC rows of the ARMv1 block repeat the original values
verbatim.  `NONE` entries are `-1`. -/
def a32_register_for_mode_table : List Int :=
  [ 0, 1, 2, 3, 4, 5, 6, 7, 8, 9, 10, 11, 12, 13, 14, 35,
    0, 1, 2, 3, 4, 5, 6, 7, 8, 9, 26, 27, 28, 29, 30, 35,
    0, 1, 2, 3, 4, 5, 6, 7, 8, 9, 10, 11, 12, 17, 16, 35,
    0, 1, 2, 3, 4, 5, 6, 7, 8, 9, 10, 11, 12, 19, 18, 35,
    -1, -1, -1, -1, -1, -1, -1, -1, -1, -1, -1, -1, -1, -1, -1, -1,
    -1, -1, -1, -1, -1, -1, -1, -1, -1, -1, -1, -1, -1, -1, -1, -1,
    0, 1, 2, 3, 4, 5, 6, 7, 8, 9, 10, 11, 12, 37, 36, 35,
    0, 1, 2, 3, 4, 5, 6, 7, 8, 9, 10, 11, 12, 21, 20, 35,
    -1, -1, -1, -1, -1, -1, -1, -1, -1, -1, -1, -1, -1, -1, -1, -1,
    -1, -1, -1, -1, -1, -1, -1, -1, -1, -1, -1, -1, -1, -1, -1, -1,
    0, 1, 2, 3, 4, 5, 6, 7, 8, 9, 10, 11, 12, 15, 14, 35,
    0, 1, 2, 3, 4, 5, 6, 7, 8, 9, 10, 11, 12, 23, 22, 35,
    -1, -1, -1, -1, -1, -1, -1, -1, -1, -1, -1, -1, -1, -1, -1, -1,
    -1, -1, -1, -1, -1, -1, -1, -1, -1, -1, -1, -1, -1, -1, -1, -1,
    -1, -1, -1, -1, -1, -1, -1, -1, -1, -1, -1, -1, -1, -1, -1, -1,
    0, 1, 2, 3, 4, 5, 6, 7, 8, 9, 10, 11, 12, 13, 14, 35 ]

def a32_register_for_mode (i : Nat) : Int :=
  a32_register_for_mode_table.getD i (-1)

/-- The index expression of the `a32_register_mode` macro (emu.c line
375): `a32_register_for_mode[mode * 16 + regnum + (version == ARMV1 ?
256 : 0)]`, converted to a `Nat` slot.  The compiled array has only 256
entries, so the ARMv1 branch always indexes past its end - an
out-of-bounds read in C, as is reading through a `NONE` row; the model
returns the `getD` default `-1` (`Int.toNat` maps it to 0) in both
cases, and every theorem below either confines itself to in-bounds rows
or states only the index bound. -/
def a32_register_mode_idx (s : arm_state_t) (regnum mode : Nat) : Nat :=
  (a32_register_for_mode (mode * 16 + regnum + (if s.version = ARMV1 then 256 else 0))).toNat

/-- Read accessor corresponding to the `a32_register_mode` macro. -/
def a32_register_mode_get (s : arm_state_t) (regnum mode : Nat) : Nat :=
  s.r (a32_register_mode_idx s regnum mode)

/-- Write accessor corresponding to an assignment through the
`a32_register_mode` macro (the stored `uint64_t` keeps the value). -/
def a32_register_mode_set (s : arm_state_t) (regnum mode v : Nat) : arm_state_t :=
  { s with r := updR s.r (a32_register_mode_idx s regnum mode) v }

/-! ## SPSR table and CPSR accessors -/

/-- From emu.c `a32_spsr_for_mode` (lines 459-477); `NONE` is `-1`.
The source maps `MODE_HYP` to `SPSR_MON`, which the table reproduces. -/
def a32_spsr_for_mode_table : List Int :=
  [-1, 47, 46, 41, -1, -1, 43, 44, -1, -1, 43, 45, -1, -1, -1, -1]

def a32_spsr_for_mode (mode : Nat) : Int :=
  a32_spsr_for_mode_table.getD (mode % 16) (-1)

/-- Whether the mode has an SPSR (the `a32_spsr_mode_valid` macro). -/
def a32_spsr_mode_valid (mode : Nat) : Bool :=
  a32_spsr_for_mode mode ≠ -1

/-- Read through the `a32_spsr_mode` macro (a `NONE` row is an
out-of-bounds access in C and unreachable behind the validity check). -/
def a32_spsr_mode_get (s : arm_state_t) (mode : Nat) : Nat :=
  s.r (a32_spsr_for_mode mode).toNat

/-- Write through the `a32_spsr_mode` macro. -/
def a32_spsr_mode_set (s : arm_state_t) (mode v : Nat) : arm_state_t :=
  { s with r := updR s.r (a32_spsr_for_mode mode).toNat v }

/-- From emu.c `a32_get_spsr`. -/
def a32_get_spsr (s : arm_state_t) : Nat :=
  if !a32_spsr_mode_valid s.pstate.mode then 0
  else u32 (a32_spsr_mode_get s s.pstate.mode)

/-- From emu.c `a26_get_pc`: the 26-bit PC with the PSR packed into its
top and bottom bits. -/
def a26_get_pc (s : arm_state_t) : Nat :=
  (s.r PC &&& 0x03FFFFFC) |||
    (s.pstate.mode &&& 3) ||| (if s.pstate.f ≠ 0 then CPSR_A26_F else 0) |||
    (if s.pstate.i ≠ 0 then CPSR_A26_I else 0) |||
    (if s.pstate.v ≠ 0 then CPSR_V else 0) ||| (if s.pstate.c ≠ 0 then CPSR_C else 0) |||
    (if s.pstate.z ≠ 0 then CPSR_Z else 0) ||| (if s.pstate.n ≠ 0 then CPSR_N else 0)

/-- From emu.c `a32_get_cpsr` (lines 162-181). -/
def a32_get_cpsr (s : arm_state_t) : Nat :=
  let cpsr := s.pstate.mode ||| (if s.pstate.rw &&& 1 ≠ 0 then CPSR_M4 else 0) |||
    (if s.pstate.f ≠ 0 then CPSR_F else 0) ||| (if s.pstate.i ≠ 0 then CPSR_I else 0) |||
    (if s.pstate.v ≠ 0 then CPSR_V else 0) ||| (if s.pstate.c ≠ 0 then CPSR_C else 0) |||
    (if s.pstate.z ≠ 0 then CPSR_Z else 0) ||| (if s.pstate.n ≠ 0 then CPSR_N else 0)
  let cpsr := if s.features.testBit FEATURE_THUMB then
      cpsr ||| (if s.pstate.jt &&& 1 ≠ 0 then CPSR_T else 0) else cpsr
  let cpsr := if s.features.testBit FEATURE_JAZELLE || s.version = ARMV7 then
      cpsr ||| (if s.pstate.jt &&& 2 ≠ 0 then CPSR_J else 0) else cpsr
  let cpsr := if s.features.testBit FEATURE_ENH_DSP then
      cpsr ||| (if s.pstate.q ≠ 0 then CPSR_Q else 0) else cpsr
  let cpsr := if ARMV6 ≤ s.version then
      cpsr ||| (if s.pstate.a ≠ 0 then CPSR_A else 0) |||
        (if s.pstate.e ≠ 0 then CPSR_E else 0) ||| (s.pstate.ge <<< CPSR_GE_SHIFT) else cpsr
  let cpsr := if s.features.testBit FEATURE_THUMB2 then
      cpsr ||| ((s.pstate.it <<< CPSR_IT0_SHIFT) &&& CPSR_IT0_MASK) |||
        ((s.pstate.it <<< CPSR_IT1_SHIFT) &&& CPSR_IT1_MASK) else cpsr
  let cpsr := if ARMV81 ≤ s.version then
      cpsr ||| (if s.pstate.pan ≠ 0 then CPSR_PAN else 0) else cpsr
  cpsr

/-- From emu.c `a64_get_cpsr` (lines 251-260). -/
def a64_get_cpsr (s : arm_state_t) : Nat :=
  let cpsr := s.pstate.sp ||| (s.pstate.el <<< CPSR_EL_SHIFT) |||
    (if s.pstate.rw &&& 1 ≠ 0 then CPSR_M4 else 0) |||
    (if s.pstate.f ≠ 0 then CPSR_F else 0) ||| (if s.pstate.i ≠ 0 then CPSR_I else 0) |||
    (if s.pstate.a ≠ 0 then CPSR_A else 0) ||| (if s.pstate.d ≠ 0 then CPSR_D else 0) |||
    (if s.pstate.v ≠ 0 then CPSR_V else 0) ||| (if s.pstate.c ≠ 0 then CPSR_C else 0) |||
    (if s.pstate.z ≠ 0 then CPSR_Z else 0) ||| (if s.pstate.n ≠ 0 then CPSR_N else 0)
  let cpsr := if ARMV81 ≤ s.version then
      cpsr ||| (if s.pstate.pan ≠ 0 then CPSR_PAN else 0) else cpsr
  let cpsr := if ARMV82 ≤ s.version then
      cpsr ||| (if s.pstate.uao ≠ 0 then CPSR_UAO else 0) else cpsr
  cpsr

/-- From emu.c `a32_set_cpsr_nzcv`. -/
def a32_set_cpsr_nzcv (s : arm_state_t) (value : Nat) : arm_state_t :=
  { s with pstate := { s.pstate with
      v := if value &&& CPSR_V ≠ 0 then 1 else 0
      c := if value &&& CPSR_C ≠ 0 then 1 else 0
      z := if value &&& CPSR_Z ≠ 0 then 1 else 0
      n := if value &&& CPSR_N ≠ 0 then 1 else 0 } }

/-- From emu.c `a32_set_cpsr` (lines 183-249).  Every bitfield
assignment is reduced by the field width exactly as the C bitfield
truncates.  The complement `~mask` of the 32-bit mask is
`mask XOR 0xFFFFFFFF`. -/
def a32_set_cpsr (s : arm_state_t) (mask cpsr : Nat) : arm_state_t :=
  let s := if mask &&& CPSR_M4 ≠ 0 && s.features.testBit FEATURE_ARM26 &&
      s.features.testBit FEATURE_ARM32 && !a32_is_prog26 s then
      { s with pstate := { s.pstate with
          rw := if cpsr &&& CPSR_M4 ≠ 0 then PSTATE_RW_32 else PSTATE_RW_26 } }
    else s
  let s := if mask &&& CPSR_MODE_MASK ≠ 0 then
      { s with pstate := { s.pstate with
          mode := ((s.pstate.mode &&& (4294967295 ^^^ CPSR_MODE_MASK)) |||
            (cpsr &&& CPSR_MODE_MASK)) % 16 } }
    else s
  let s := if s.pstate.rw = PSTATE_RW_26 then
      { s with pstate := { s.pstate with mode := s.pstate.mode &&& 3 } }
    else s
  let s := if mask &&& CPSR_F ≠ 0 then
      { s with pstate := { s.pstate with f := if cpsr &&& CPSR_F ≠ 0 then 1 else 0 } } else s
  let s := if mask &&& CPSR_I ≠ 0 then
      { s with pstate := { s.pstate with i := if cpsr &&& CPSR_I ≠ 0 then 1 else 0 } } else s
  let s := if mask &&& CPSR_N ≠ 0 then
      { s with pstate := { s.pstate with n := if cpsr &&& CPSR_N ≠ 0 then 1 else 0 } } else s
  let s := if mask &&& CPSR_C ≠ 0 then
      { s with pstate := { s.pstate with c := if cpsr &&& CPSR_C ≠ 0 then 1 else 0 } } else s
  let s := if mask &&& CPSR_Z ≠ 0 then
      { s with pstate := { s.pstate with z := if cpsr &&& CPSR_Z ≠ 0 then 1 else 0 } } else s
  let s := if mask &&& CPSR_V ≠ 0 then
      { s with pstate := { s.pstate with v := if cpsr &&& CPSR_V ≠ 0 then 1 else 0 } } else s
  let s := if mask &&& (CPSR_T ||| CPSR_J) ≠ 0 then
      let s := if mask &&& CPSR_T ≠ 0 then
          { s with pstate := { s.pstate with
              jt := ((s.pstate.jt &&& 2) ||| (if cpsr &&& CPSR_T ≠ 0 then 1 else 0)) % 4 } }
        else s
      let s := if mask &&& CPSR_J ≠ 0 then
          { s with pstate := { s.pstate with
              jt := ((s.pstate.jt &&& 1) ||| (if cpsr &&& CPSR_J ≠ 0 then 2 else 0)) % 4 } }
        else s
      if s.pstate.jt = PSTATE_JT_ARM then
        if !(s.features.testBit FEATURE_ARM26 || s.features.testBit FEATURE_ARM32) then
          { s with pstate := { s.pstate with jt := PSTATE_JT_THUMB } } else s
      else if s.pstate.jt = PSTATE_JT_THUMB then
        if !s.features.testBit FEATURE_THUMB then
          { s with pstate := { s.pstate with jt := PSTATE_JT_ARM } } else s
      else if s.pstate.jt = PSTATE_JT_JAZELLE then
        if !s.features.testBit FEATURE_JAZELLE then
          { s with pstate := { s.pstate with jt := PSTATE_JT_ARM } } else s
      else
        if s.version ≠ ARMV7 then
          { s with pstate := { s.pstate with jt := PSTATE_JT_THUMB } } else s
    else s
  let s := if mask &&& CPSR_Q ≠ 0 && s.features.testBit FEATURE_ENH_DSP then
      { s with pstate := { s.pstate with q := if cpsr &&& CPSR_Q ≠ 0 then 1 else 0 } } else s
  let s := if mask &&& CPSR_A ≠ 0 && ARMV6 ≤ s.version then
      { s with pstate := { s.pstate with a := if cpsr &&& CPSR_A ≠ 0 then 1 else 0 } } else s
  let s := if mask &&& CPSR_E ≠ 0 && ARMV6 ≤ s.version then
      { s with pstate := { s.pstate with e := if cpsr &&& CPSR_E ≠ 0 then 1 else 0 } } else s
  let s := if mask &&& CPSR_GE_MASK ≠ 0 && ARMV6 ≤ s.version then
      { s with pstate := { s.pstate with
          ge := ((s.pstate.ge &&& (((4294967295 ^^^ u32 mask) &&& CPSR_GE_MASK) >>> CPSR_GE_SHIFT)) |||
            ((cpsr &&& mask &&& CPSR_GE_MASK) >>> CPSR_GE_SHIFT)) % 16 } }
    else s
  let s := if mask &&& (CPSR_IT0_MASK ||| CPSR_IT1_MASK) ≠ 0 &&
      s.features.testBit FEATURE_THUMB2 then
      { s with pstate := { s.pstate with
          it := ((s.pstate.it &&& ((((4294967295 ^^^ u32 mask) &&& CPSR_IT0_MASK) >>> CPSR_IT0_SHIFT) |||
              (((4294967295 ^^^ u32 mask) &&& CPSR_IT1_MASK) >>> CPSR_IT1_SHIFT))) |||
            ((cpsr &&& mask &&& CPSR_IT0_MASK) >>> CPSR_IT0_SHIFT) |||
            ((cpsr &&& mask &&& CPSR_IT1_MASK) >>> CPSR_IT1_SHIFT)) % 256 } }
    else s
  let s := if mask &&& CPSR_PAN ≠ 0 && ARMV81 ≤ s.version then
      { s with pstate := { s.pstate with pan := if cpsr &&& CPSR_PAN ≠ 0 then 1 else 0 } } else s
  let s := if mask &&& CPSR_UAO ≠ 0 && ARMV82 ≤ s.version then
      { s with pstate := { s.pstate with uao := if cpsr &&& CPSR_UAO ≠ 0 then 1 else 0 } } else s
  s

/-! ## The IT-block state machine (claims C10, C2) -/

/-- From emu.c `t32_in_it_block`. -/
def t32_in_it_block (s : arm_state_t) : Bool :=
  s.pstate.it &&& 0xF ≠ 0

/-- From emu.c `t32_last_in_it_block`. -/
def t32_last_in_it_block (s : arm_state_t) : Bool :=
  s.pstate.it &&& 0xF = 0x8

/-- From emu.c `t32_advance_it` (lines 2195-2208): shift the IT state by
one slot; when the low three bits are already clear the block ends and
the state becomes zero. -/
def t32_advance_it (s : arm_state_t) : arm_state_t :=
  if !t32_in_it_block s then s
  else
    let itstate := s.pstate.it
    let itstate := if itstate &&& 0x07 = 0 then 0
      else ((itstate &&& 0xE0) ||| ((itstate <<< 1) &&& 0x1F)) % 256
    { s with pstate := { s.pstate with it := itstate } }

/-- From emu.c `arm_break_emulation` (lines 2225-2230): the capture path
of every fault handler.  It advances the IT state, records the result
code and leaves the current `step` (the `longjmp` is the end of the
embedded transformer). -/
def arm_break_emulation (s : arm_state_t) (result : arm_emu_result_t) : arm_state_t :=
  let s := t32_advance_it s
  { s with result := result }

/-! ## Exception entry (claims C2, C10, C1) -/

/-- From emu.c `a64_el_uses_aarch64` (lines 2233-2250). -/
def a64_el_uses_aarch64 (s : arm_state_t) (selected_el : Nat) : Bool :=
  if s.lowest_64bit_only_el ≤ selected_el then true
  else if selected_el = 3 then false
  else if s.el3_supported && s.scr_el3 &&& SCR_EL3_RW = 0 then false
  else if selected_el = 2 then true
  else if s.el2_supported && s.hcr_el2 &&& HCR_EL2_RW = 0 &&
      s.hcr_el2 &&& (HCR_EL2_E2H ||| HCR_EL2_TGE) ≠ (HCR_EL2_E2H ||| HCR_EL2_TGE) then false
  else if selected_el = 1 then true
  else s.pstate.rw = PSTATE_RW_64

/-- From emu.c `a64_exception` (lines 2252-2316): architectural A64
exception entry.  `mode` is the value the source stores into
`pstate.mode` and uses to select the ELR/SPSR slots.  The `address`
parameter is a C `uint32_t`, so every increment - including the
addition of the (64-bit) masked VBAR - wraps at 2^32 before the result
lands in `r[PC]`. -/
def a64_exception (s : arm_state_t) (address0 mode : Nat) : arm_state_t :=
  let s := t32_advance_it s
  let address := u32 address0
  let current_el := s.pstate.el
  let target_el := (mode &&& CPSR_EL_MASK) >>> CPSR_EL_SHIFT
  let address :=
    if current_el < target_el then
      if a64_el_uses_aarch64 s (target_el - 1) then u32 (address + 0x600)
      else u32 (address + 0x400)
    else if s.pstate.sp ≠ 0 then u32 (address + 0x200)
    else address
  let address :=
    if target_el = 1 then u32 (address + (s.vbar_el1 &&& (18446744073709551615 ^^^ 0x7FF)))
    else if target_el = 2 then u32 (address + (s.vbar_el2 &&& (18446744073709551615 ^^^ 0x7FF)))
    else if target_el = 3 then u32 (address + (s.vbar_el3 &&& (18446744073709551615 ^^^ 0x7FF)))
    else address
  let s := { s with r := updR s.r (ELR_EL1 - 1 + mode) (s.r PC) }
  let s := { s with r := updR s.r (SPSR_EL1 - 1 + mode) (a64_get_cpsr s) }
  let s := { s with r := updR s.r PC address }
  let s := { s with pstate := { s.pstate with
      rw := PSTATE_RW_64, jt := PSTATE_JT_ARM, mode := mode % 16, sp := 1,
      d := 1, a := 1, i := 1, f := 1, it := 0, ss := 0, il := 0 } }
  if ARMV81 ≤ s.version then
    { s with pstate := { s.pstate with
        pan := if s.sctlr_el1 &&& SCTLR_SPAN ≠ 0 then 1 else 0 } }
  else s

/-- From emu.c `a32_exception` (lines 2318-2365): architectural A32/A26
exception entry. -/
def a32_exception (s : arm_state_t) (address mode : Nat) : arm_state_t :=
  let s := t32_advance_it s
  let s :=
    if !a32_is_prog26 s then
      let s := if mode = MODE_HYP then { s with r := updR s.r ELR_HYP (s.r PC) }
        else a32_register_mode_set s 14 mode (s.r PC)
      a32_spsr_mode_set s mode (a32_get_cpsr s)
    else
      a32_register_mode_set s 14 mode (a26_get_pc s)
  let s := { s with r := updR s.r PC address }
  let s := if s.sctlr_el1 &&& SCTLR_V ≠ 0 then
      { s with r := updR s.r PC (u64 (s.r PC + 0xFFFF0000)) } else s
  let s := { s with pstate := { s.pstate with i := 1, mode := mode % 16 } }
  let s := { s with pstate := { s.pstate with
      rw := if a32_is_prog26 s then PSTATE_RW_26 else PSTATE_RW_32 } }
  let s := if address = A32_VECTOR_RESET || address = A32_VECTOR_FIQ then
      { s with pstate := { s.pstate with f := 1 } } else s
  let s := { s with pstate := { s.pstate with
      jt := if ARMV7 ≤ s.version && s.sctlr_el1 &&& SCTLR_TE ≠ 0 then PSTATE_JT_THUMB
        else PSTATE_JT_ARM
      e := if ARMV6 ≤ s.version && s.sctlr_el1 &&& SCTLR_EE ≠ 0 then 1 else 0 } }
  let s := if ARMV6 ≤ s.version &&
      (address ≠ A32_VECTOR_UNDEFINED || address ≠ A32_VECTOR_SWI) then
      { s with pstate := { s.pstate with a := 1 } } else s
  let s := { s with pstate := { s.pstate with it := 0 } }
  let s := if ARMV8 ≤ s.version then
      { s with pstate := { s.pstate with ss := 1, il := 1 } } else s
  let s := if ARMV81 ≤ s.version then
      { s with pstate := { s.pstate with
          pan := if s.sctlr_el1 &&& SCTLR_SPAN ≠ 0 then 1 else 0 } }
    else s
  s

/-- From emu.c `arm_undefined` (lines 2399-2433): the funnel for every
undefined-encoding fault.  With `capture_breaks` set it calls
`arm_break_emulation(cpu, ARM_EMU_SVC)` (the source passes `ARM_EMU_SVC`,
not `ARM_EMU_UNDEFINED`). -/
def arm_undefined (s : arm_state_t) : arm_state_t :=
  let s := { s with r := updR s.r PC s.old_pc }
  if s.capture_breaks then
    arm_break_emulation s arm_emu_result_t.svc
  else if a64_el_uses_aarch64 s 1 then
    a64_exception s A64_VECTOR_SYNCHRONOUS (max 1 s.pstate.el)
  else
    let isa := arm_get_current_instruction_set s
    let s := if isa = ISA_AARCH26 || isa = ISA_AARCH32 then
        { s with r := updR s.r PC (u64 (s.r PC + 4)) }
      else if isa = ISA_THUMB32 || isa = ISA_THUMBEE then
        { s with r := updR s.r PC (u64 (s.r PC + 2)) }
      else s
    a32_exception s A32_VECTOR_UNDEFINED (if !a32_is_prog26 s then MODE_UND else MODE_SVC)

/-! ## Memory subsystem (claims C7, C1, C4, C8) -/

/-- A call `memory->read(cpu, addr, buffer, len, priv)` on the modelled
interface: succeeds iff every touched byte is accessible, returning the
byte list. -/
def memReadBytes (m : memory_interface_t) (addr len : Nat) (priv : Bool) : Option (List Nat) :=
  if (List.range len).all (fun i => m.valid (addr + i) priv) then
    some ((List.range len).map (fun i => m.bytes (addr + i) % 256))
  else none

/-- A call `memory->write(cpu, addr, buffer, len, priv)` on the modelled
interface. -/
def memWriteBytes (m : memory_interface_t) (addr : Nat) (data : List Nat) (priv : Bool) :
    Option memory_interface_t :=
  if (List.range data.length).all (fun i => m.valid (addr + i) priv) then
    some { m with bytes := fun a =>
      if addr ≤ a ∧ a < addr + data.length then data.getD (a - addr) 0 else m.bytes a }
  else none

/-- Little-endian byte image of a 16-bit value (what `htole16` plus a
byte-wise store produces on any host). -/
def le16_of (v : Nat) : List Nat := [v % 256, v / 256 % 256]

def be16_of (v : Nat) : List Nat := [v / 256 % 256, v % 256]

def le32_of (v : Nat) : List Nat :=
  [v % 256, v / 256 % 256, v / 65536 % 256, v / 16777216 % 256]

def be32_of (v : Nat) : List Nat :=
  [v / 16777216 % 256, v / 65536 % 256, v / 256 % 256, v % 256]

/-- Little-endian parse of a 2-byte buffer (`le16toh`). -/
def le16_parse (b : List Nat) : Nat := b.getD 0 0 + 256 * b.getD 1 0

def be16_parse (b : List Nat) : Nat := 256 * b.getD 0 0 + b.getD 1 0

def le32_parse (b : List Nat) : Nat :=
  b.getD 0 0 + 256 * b.getD 1 0 + 65536 * b.getD 2 0 + 16777216 * b.getD 3 0

def be32_parse (b : List Nat) : Nat :=
  16777216 * b.getD 0 0 + 65536 * b.getD 1 0 + 256 * b.getD 2 0 + b.getD 3 0

/-- From emu.c `memory_read8` (line 1054): a byte read, with the BE-32
address flip `address ^ 3`. -/
def memory_read8 (m : memory_interface_t) (address endian : Nat) (priv : Bool) : Option Nat :=
  match memReadBytes m (address ^^^ (if endian = ARM_ENDIAN_SWAPPED then 3 else 0)) 1 priv with
  | some b => some (b.getD 0 0)
  | none => none

/-- From emu.c `memory_write8` (line 1276). -/
def memory_write8 (m : memory_interface_t) (address value endian : Nat) (priv : Bool) :
    Option memory_interface_t :=
  memWriteBytes m (address ^^^ (if endian = ARM_ENDIAN_SWAPPED then 3 else 0)) [value % 256] priv

/-- From emu.c `memory_read_bytes16` (lines 895-916).  The C parameter is
`uint32_t`, so the 64-bit caller address is truncated at entry; the
address arithmetic `(address ^ 3) - 1` and `address + 4` is 32-bit. -/
def memory_read_bytes16 (m : memory_interface_t) (address0 endian : Nat) (priv : Bool) :
    Option (List Nat) :=
  let address := u32 address0
  if endian ≠ ARM_ENDIAN_SWAPPED then memReadBytes m address 2 priv
  else if address &&& 3 ≠ 3 then memReadBytes m (sub32 (address ^^^ 3) 1) 2 priv
  else
    match memReadBytes m (address &&& 4294967292) 1 priv,
        memReadBytes m (u32 (address + 4)) 1 priv with
    | some b1, some b0 => some [b0.getD 0 0, b1.getD 0 0]
    | _, _ => none

/-- From emu.c `memory_write_bytes16` (lines 918-939). -/
def memory_write_bytes16 (m : memory_interface_t) (address0 : Nat) (data : List Nat)
    (endian : Nat) (priv : Bool) : Option memory_interface_t :=
  let address := u32 address0
  if endian ≠ ARM_ENDIAN_SWAPPED then memWriteBytes m address data priv
  else if address &&& 3 ≠ 3 then memWriteBytes m (sub32 (address ^^^ 3) 1) data priv
  else
    match memWriteBytes m (address &&& 4294967292) [data.getD 1 0] priv with
    | none => none
    | some m1 => memWriteBytes m1 (u32 (address + 4)) [data.getD 0 0] priv

/-- From emu.c `memory_read_bytes32` (lines 941-962).  In the unaligned
BE-32 case the two partial reads land at list positions `address & 3 ..`
and `0 ..` respectively, so the buffer is `low ++ high`. -/
def memory_read_bytes32 (m : memory_interface_t) (address0 endian : Nat) (priv : Bool) :
    Option (List Nat) :=
  let address := u32 address0
  if endian ≠ ARM_ENDIAN_SWAPPED then memReadBytes m address 4 priv
  else if address &&& 3 = 0 then memReadBytes m address 4 priv
  else
    match memReadBytes m (address &&& 4294967292) (4 - (address &&& 3)) priv,
        memReadBytes m (u32 (address + 8 - ((address &&& 3) <<< 1))) (address &&& 3) priv with
    | some hi, some lo => some (lo ++ hi)
    | _, _ => none

/-- From emu.c `memory_write_bytes32` (lines 964-985). -/
def memory_write_bytes32 (m : memory_interface_t) (address0 : Nat) (data : List Nat)
    (endian : Nat) (priv : Bool) : Option memory_interface_t :=
  let address := u32 address0
  if endian ≠ ARM_ENDIAN_SWAPPED then memWriteBytes m address data priv
  else if address &&& 3 = 0 then memWriteBytes m address data priv
  else
    match memWriteBytes m (address &&& 4294967292) (data.drop (address &&& 3)) priv with
    | none => none
    | some m1 =>
        memWriteBytes m1 (u32 (address + 8 - ((address &&& 3) <<< 1)))
          (data.take (address &&& 3)) priv

/-- From emu.c `memory_read16` (lines 1099-1116): fetch the byte pair
and parse little-endian (LE and BE-32) or big-endian (BE-8). -/
def memory_read16 (m : memory_interface_t) (address endian : Nat) (priv : Bool) : Option Nat :=
  match memory_read_bytes16 m address endian priv with
  | none => none
  | some b => some (if endian = ARM_ENDIAN_BIG then be16_parse b else le16_parse b)

/-- From emu.c `memory_write16` (lines 1317-1331). -/
def memory_write16 (m : memory_interface_t) (address value endian : Nat) (priv : Bool) :
    Option memory_interface_t :=
  memory_write_bytes16 m address
    (if endian = ARM_ENDIAN_BIG then be16_of (value % 65536) else le16_of (value % 65536))
    endian priv

/-- From emu.c `memory_read32`. -/
def memory_read32 (m : memory_interface_t) (address endian : Nat) (priv : Bool) : Option Nat :=
  match memory_read_bytes32 m address endian priv with
  | none => none
  | some b => some (if endian = ARM_ENDIAN_BIG then be32_parse b else le32_parse b)

/-- From emu.c `memory_write32` (lines 1369-1383). -/
def memory_write32 (m : memory_interface_t) (address value endian : Nat) (priv : Bool) :
    Option memory_interface_t :=
  memory_write_bytes32 m address
    (if endian = ARM_ENDIAN_BIG then be32_of (u32 value) else le32_of (u32 value))
    endian priv

/-- From emu.c `a32_read8`: data abort when the interface refuses. -/
def a32_read8 (s : arm_state_t) (address : Nat) : Except Interrupt Nat :=
  match memory_read8 s.memory (u32 address) (a32_get_data_endianness s)
      (arm_is_privileged_mode s) with
  | some v => .ok v
  | none => .error .dataAbortTrap

/-- From emu.c `a32_read16`. -/
def a32_read16 (s : arm_state_t) (address : Nat) : Except Interrupt Nat :=
  match memory_read16 s.memory (u32 address) (a32_get_data_endianness s)
      (arm_is_privileged_mode s) with
  | some v => .ok v
  | none => .error .dataAbortTrap

/-- From emu.c `a32_read32` (line 1193). -/
def a32_read32 (s : arm_state_t) (address : Nat) : Except Interrupt Nat :=
  match memory_read32 s.memory (u32 address) (a32_get_data_endianness s)
      (arm_is_privileged_mode s) with
  | some v => .ok v
  | none => .error .dataAbortTrap

/-- From emu.c `a32_write8`. -/
def a32_write8 (s : arm_state_t) (address value : Nat) : Except Interrupt arm_state_t :=
  match memory_write8 s.memory (u32 address) (value % 256) (a32_get_data_endianness s)
      (arm_is_privileged_mode s) with
  | some m => .ok { s with memory := m }
  | none => .error .dataAbortTrap

/-- From emu.c `a32_write16`. -/
def a32_write16 (s : arm_state_t) (address value : Nat) : Except Interrupt arm_state_t :=
  match memory_write16 s.memory (u32 address) (value % 65536) (a32_get_data_endianness s)
      (arm_is_privileged_mode s) with
  | some m => .ok { s with memory := m }
  | none => .error .dataAbortTrap

/-- From emu.c `a32_write32` (line 1397). -/
def a32_write32 (s : arm_state_t) (address value : Nat) : Except Interrupt arm_state_t :=
  match memory_write32 s.memory (u32 address) (u32 value) (a32_get_data_endianness s)
      (arm_is_privileged_mode s) with
  | some m => .ok { s with memory := m }
  | none => .error .dataAbortTrap

/-! ## A32 register accessors (claims C4, C5, C9, C1) -/

/-- From emu.c `a32_register_get32` (lines 557-575): resolve through the
mode table and add the pipeline offset when R15 is read. -/
def a32_register_get32 (s : arm_state_t) (regnum0 : Nat) : Nat :=
  let regnum := regnum0 &&& 0xF
  let value := a32_register_mode_get s regnum s.pstate.mode &&& 0xFFFFFFFF
  if regnum = A32_PC_NUM then
    if s.pstate.jt = PSTATE_JT_ARM then u32 (value + 4)
    else if s.pstate.jt = PSTATE_JT_THUMB || s.pstate.jt = PSTATE_JT_THUMBEE then
      u32 (value + 2)
    else value
  else value

/-- From emu.c `a32_register_get32_lhs` (lines 577-602). -/
def a32_register_get32_lhs (s : arm_state_t) (regnum0 : Nat) : Nat :=
  let regnum := regnum0 &&& 0xF
  if s.pstate.rw = PSTATE_RW_26 && regnum = A32_PC_NUM then u32 (a26_get_pc s + 4)
  else a32_register_get32 s regnum

/-- From emu.c `a32_get_stored_pc_displacement` (lines 625-631). -/
def a32_get_stored_pc_displacement (s : arm_state_t) : Nat :=
  if ARMV7 ≤ s.version then 0 else 4

/-- From emu.c `a32_set_pc` (lines 520-538). -/
def a32_set_pc (s : arm_state_t) (value0 : Nat) : arm_state_t :=
  let value := u32 value0
  if s.pstate.jt = PSTATE_JT_ARM then { s with r := updR s.r PC (value &&& 0xFFFFFFFC) }
  else if s.pstate.jt = PSTATE_JT_THUMB || s.pstate.jt = PSTATE_JT_THUMBEE then
    { s with r := updR s.r PC (value &&& 0xFFFFFFFE) }
  else { s with r := updR s.r PC value }

/-- From emu.c `a32_set_pc_mode` (lines 540-555). -/
def a32_set_pc_mode (s : arm_state_t) (value0 : Nat) : arm_state_t :=
  let value := u32 value0
  let s := if s.pstate.jt = PSTATE_JT_ARM || s.pstate.jt = PSTATE_JT_THUMB then
      { s with pstate := { s.pstate with
          jt := if value &&& 1 ≠ 0 then PSTATE_JT_THUMB else PSTATE_JT_ARM } }
    else s
  a32_set_pc s value

/-- From emu.c `a32_register_set32` (lines 654-672). -/
def a32_register_set32 (s : arm_state_t) (regnum0 value0 : Nat) : arm_state_t :=
  let regnum := regnum0 &&& 0xF
  let value := u32 value0
  if regnum = A32_PC_NUM then
    if s.pstate.rw = PSTATE_RW_26 then { s with r := updR s.r PC (value &&& 0x03FFFFFC) }
    else a32_set_pc s value
  else a32_register_mode_set s regnum s.pstate.mode value

/-- From emu.c `a32_register_set32_interworking` (lines 675-693). -/
def a32_register_set32_interworking (s : arm_state_t) (regnum0 value0 : Nat) : arm_state_t :=
  let regnum := regnum0 &&& 0xF
  let value := u32 value0
  if regnum = A32_PC_NUM then
    if s.pstate.rw = PSTATE_RW_26 then { s with r := updR s.r PC (value &&& 0x03FFFFFC) }
    else a32_set_pc_mode s value
  else a32_register_mode_set s regnum s.pstate.mode value

/-- From emu.c `a32_register_set32_interworking_v5` (lines 696-702). -/
def a32_register_set32_interworking_v5 (s : arm_state_t) (regnum value : Nat) : arm_state_t :=
  if s.version < ARMV5 then a32_register_set32 s regnum value
  else a32_register_set32_interworking s regnum value

/-! ## Barrel shifter (claim C9) -/

/-- From arm.h `rotate_right32`. -/
def rotate_right32 (value bits0 : Nat) : Nat :=
  let bits := bits0 &&& 0x1F
  if bits = 0 then value
  else u32 ((value >>> bits) ||| (value <<< (32 - bits)))

/-- Arithmetic right shift of a 32-bit two's-complement value by
`amount ≤ 31` bits, the effect of the C expression
`(int32_t)value >> amount` (sign extension on a negative value fills the
vacated top bits with ones). -/
def sar32 (value amount : Nat) : Nat :=
  if value.testBit 31 then (value >>> amount) + (4294967296 - 2 ^ (32 - amount))
  else value >>> amount

/-- From emu.c `a32_lsl32` (lines 2706-2713); returns the operand value
together with the state whose carry may have been updated. -/
def a32_lsl32 (s : arm_state_t) (value amount : Nat) (store_carry : Bool) :
    Nat × arm_state_t :=
  if amount = 0 then (value, s)
  else
    let s := if store_carry then
        { s with pstate := { s.pstate with
            c := if amount ≤ 32 then (value >>> (32 - amount)) &&& 1 else 0 } }
      else s
    (if amount < 32 then u32 (value <<< amount) else 0, s)

/-- From emu.c `a32_lsr32` (lines 2715-2722). -/
def a32_lsr32 (s : arm_state_t) (value amount : Nat) (store_carry : Bool) :
    Nat × arm_state_t :=
  if amount = 0 then (value, s)
  else
    let s := if store_carry then
        { s with pstate := { s.pstate with
            c := if amount ≤ 32 then (value >>> (amount - 1)) &&& 1 else 0 } }
      else s
    (if amount < 32 then value >>> amount else 0, s)

/-- From emu.c `a32_asr32` (lines 2724-2731).  The carry shift is on the
unsigned value; the result shift is the arithmetic `(int32_t)` shift. -/
def a32_asr32 (s : arm_state_t) (value amount : Nat) (store_carry : Bool) :
    Nat × arm_state_t :=
  if amount = 0 then (value, s)
  else
    let s := if store_carry then
        { s with pstate := { s.pstate with
            c := (if amount ≤ 32 then value >>> (amount - 1) else value >>> 31) &&& 1 } }
      else s
    (if amount < 32 then sar32 value amount else sar32 value 31, s)

/-- From emu.c `a32_ror32` (lines 2733-2741). -/
def a32_ror32 (s : arm_state_t) (value amount0 : Nat) (store_carry : Bool) :
    Nat × arm_state_t :=
  if amount0 = 0 then (value, s)
  else
    let amount := amount0 &&& 0x1F
    let s := if store_carry then
        { s with pstate := { s.pstate with c := (value >>> (amount - 1)) &&& 1 } }
      else s
    (rotate_right32 value amount, s)

/-- From emu.c `a32_rrx32` (lines 2743-2749): rotate right by one
through the carry. -/
def a32_rrx32 (s : arm_state_t) (value : Nat) (store_carry : Bool) : Nat × arm_state_t :=
  let carry := s.pstate.c
  let s := if store_carry then
      { s with pstate := { s.pstate with c := value &&& 1 } }
    else s
  (u32 ((value >>> 1) ||| (carry <<< 31)), s)

/-- From emu.c `a32_get_immediate_operand` (lines 2751-2757). -/
def a32_get_immediate_operand (opcode : Nat) : Nat :=
  rotate_right32 (opcode &&& 0xFF) (((opcode >>> 8) &&& 0xF) * 2)

/-- From emu.c `a32_get_register_operand` (lines 2759-2814): decode the
shifter operand of a data-processing instruction.  The encoding
`(opcode & 0xFF0) == 0x060` (shift type ROR with immediate amount 0) is
the RRX case; an immediate shift amount of 0 otherwise denotes 32 via
`(((opcode >> 7) - 1) & 0x1F) + 1`. -/
def a32_get_register_operand (s : arm_state_t) (opcode : Nat) (store_carry : Bool) :
    Nat × arm_state_t :=
  let value := a32_register_get32 s (opcode &&& 0xF)
  if opcode &&& 0xFF0 = 0 then (value, s)
  else if opcode &&& 0xFF0 = 0x60 then
    let carry := s.pstate.c
    let s := if store_carry then
        { s with pstate := { s.pstate with c := value &&& 1 } }
      else s
    (u32 ((value >>> 1) ||| (carry <<< 31)), s)
  else
    let regShift := opcode &&& 0x10 ≠ 0
    let value := if regShift && opcode &&& 0xF = A32_PC_NUM then u32 (value + 4) else value
    let amount := if regShift then a32_register_get32 s ((opcode >>> 8) &&& 0xF) &&& 0xFF
      else (sub32 (opcode >>> 7) 1 &&& 0x1F) + 1
    if regShift && amount = 0 then (value, s)
    else
      match (opcode >>> 5) &&& 0x3 with
      | 0 =>
          let s := if store_carry then
              { s with pstate := { s.pstate with
                  c := if amount ≤ 32 then (value >>> (32 - amount)) &&& 1 else 0 } }
            else s
          (if amount < 32 then u32 (value <<< amount) else 0, s)
      | 1 =>
          let s := if store_carry then
              { s with pstate := { s.pstate with
                  c := if amount ≤ 32 then (value >>> (amount - 1)) &&& 1 else 0 } }
            else s
          (if amount < 32 then value >>> amount else 0, s)
      | 2 =>
          let s := if store_carry then
              { s with pstate := { s.pstate with
                  c := (if amount ≤ 32 then value >>> (amount - 1) else value >>> 31) &&& 1 } }
            else s
          (if amount < 32 then sar32 value amount else sar32 value 31, s)
      | _ =>
          let amount := amount &&& 0x1F
          let s := if store_carry then
              { s with pstate := { s.pstate with c := (value >>> (amount - 1)) &&& 1 } }
            else s
          (rotate_right32 value amount, s)

/-! ## Guard checks shared by the load/store paths -/

/-- From emu.c `e32_check_nullptr` (lines 3992-4011): in ThumbEE on v7 a
zero base address traps; the trap delivery (handler-base branch or
captured result) is cut off at the `longjmp` and surfaced as the
interrupt identity. -/
def e32_check_nullptr (s : arm_state_t) (address : Nat) : Except Interrupt Unit :=
  if s.version = ARMV7 && s.pstate.jt = PSTATE_JT_THUMBEE then
    if address = 0 then .error .thumbeeNullptrTrap else .ok ()
  else .ok ()

/-- From emu.c `a26_check_address` (lines 4013-4022): a data address
above 26 bits raises the address exception when 26-bit data checking is
active. -/
def a26_check_address (s : arm_state_t) (address : Nat) : Except Interrupt Unit :=
  if a32_is_data26 s then
    if address &&& 0xFC000000 ≠ 0 then .error .address26Trap else .ok ()
  else .ok ()

/-- The alignment-policy block repeated verbatim in the source before
every sized memory access (emu.c lines 4494-4508, 4568-4581, 4769-4782,
4802-4815, 4835-4848, 4894-4907, 4934-4947, 4974-4987), parameterised by
the low-bit mask `m`: strict alignment (SCTLR.A) faults, pre-v7 without
SCTLR.U rounds the address down, and otherwise a misaligned address
faults. -/
def a32_align_or_mask (s : arm_state_t) (address m : Nat) : Except Interrupt Nat :=
  if s.sctlr_el1 &&& SCTLR_A ≠ 0 then
    if address &&& m ≠ 0 then .error .unalignedTrap else .ok address
  else if s.version ≤ ARMV6 && s.sctlr_el1 &&& SCTLR_U = 0 then
    .ok (address &&& (4294967295 - m))
  else
    if address &&& m ≠ 0 then .error .unalignedTrap else .ok address

/-! ## Exclusive monitor (claim C1) -/

/-- From emu.c `a32_mark_exclusive` (lines 4718-4723). -/
def a32_mark_exclusive (s : arm_state_t) (base size : Nat) : arm_state_t :=
  { s with exclusive_start := base, exclusive_end := base + size - 1 }

/-- From emu.c `a32_check_exclusive` (lines 4725-4729): the test is
`exclusive_start < base + size && base <= exclusive_end`, an interval
overlap test. -/
def a32_check_exclusive (s : arm_state_t) (base size : Nat) : Bool :=
  decide (s.exclusive_start < base + size) && decide (base ≤ s.exclusive_end)

/-- From emu.c `a32_clear_exclusive` (lines 4731-4736): makes the range
empty (`start = 0xFFFFFFFF > end = 0`).  No call site exists anywhere in
the source tree. -/
def a32_clear_exclusive (s : arm_state_t) : arm_state_t :=
  { s with exclusive_start := 4294967295, exclusive_end := 0 }

/-- The base-address prefix shared by the four store-exclusive handlers
(emu.c lines 4923-4928 and the analogous lines of `a32_strexb`,
`a32_strexh`, `a32_strexd`): read the base register and word-align it
when it is the PC. -/
def strex_base_address (s : arm_state_t) (base : Nat) : Nat :=
  let address := a32_register_get32 s base
  if base = A32_PC_NUM then address &&& 0xFFFFFFFC else address

/-- From emu.c `a32_strexb` (lines 4856-4879). -/
def a32_strexb (s : arm_state_t) (value base offset : Nat) :
    Except Interrupt (Nat × arm_state_t) := do
  let address := strex_base_address s base
  let _ ← e32_check_nullptr s address
  let address := u32 (address + offset)
  if a32_check_exclusive s address 1 then do
    let _ ← a26_check_address s address
    let s1 ← a32_write8 s address value
    .ok (0, s1)
  else .ok (1, s)

/-- From emu.c `a32_strexh` (lines 4881-4919). -/
def a32_strexh (s : arm_state_t) (value base offset : Nat) :
    Except Interrupt (Nat × arm_state_t) := do
  let address := strex_base_address s base
  let _ ← e32_check_nullptr s address
  let address := u32 (address + offset)
  let address ← a32_align_or_mask s address 1
  if a32_check_exclusive s address 2 then do
    let _ ← a26_check_address s address
    let s1 ← a32_write16 s address value
    .ok (0, s1)
  else .ok (1, s)

/-- From emu.c `a32_strex` (lines 4921-4959). -/
def a32_strex (s : arm_state_t) (value base offset : Nat) :
    Except Interrupt (Nat × arm_state_t) := do
  let address := strex_base_address s base
  let _ ← e32_check_nullptr s address
  let address := u32 (address + offset)
  let address ← a32_align_or_mask s address 3
  if a32_check_exclusive s address 4 then do
    let _ ← a26_check_address s address
    let s1 ← a32_write32 s address value
    .ok (0, s1)
  else .ok (1, s)

/-- From emu.c `a32_strexd` (lines 4961-5000).  The alignment mask is 7
but the exclusive check is performed with size 4, exactly as in the
source. -/
def a32_strexd (s : arm_state_t) (operand1 operand2 base offset : Nat) :
    Except Interrupt (Nat × arm_state_t) := do
  let address := strex_base_address s base
  let _ ← e32_check_nullptr s address
  let address := u32 (address + offset)
  let address ← a32_align_or_mask s address 7
  if a32_check_exclusive s address 4 then do
    let _ ← a26_check_address s address
    let s1 ← a32_write32 s address (a32_register_get32 s operand1)
    let s2 ← a32_write32 s1 (u32 (address + 4)) (a32_register_get32 s1 operand2)
    .ok (0, s2)
  else .ok (1, s)

/-! ## Jazelle array accessors (claim C8) -/

/-- From jazelle.c `j32_get_array_length` (lines 306-321).  A null array
traps; otherwise the 32-bit length is read at `array ± length_offset`
(the JAOLR length-offset field scaled by 4) and returned RAW: the source
keeps the right shift by JAOLR.lenshift commented out behind a TODO, so
no shift is applied.  `j32_break` is surfaced as the interrupt identity
at its invocation. -/
def j32_get_array_length (s : arm_state_t) (array : Nat) : Except Interrupt Nat :=
  if array = 0 then .error (.jazelleBreak J32_EXCEPTION_NULLPTR)
  else
    let length_offset := (s.jaolr &&& JAOLR_LENGTH_OFF_MASK) >>> JAOLR_LENGTH_OFF_SHIFT
    let length_offset := if s.jaolr &&& JAOLR_LENGTH_SUB ≠ 0 then sub32 array length_offset
      else u32 (array + length_offset)
    a32_read32 s length_offset

/-- From jazelle.c `j32_get_array_element_start_address` (lines 323-332). -/
def j32_get_array_element_start_address (s : arm_state_t) (array : Nat) :
    Except Interrupt Nat :=
  let element_offset := (s.jaolr &&& JAOLR_ELEMENT_OFF_MASK) >>> JAOLR_ELEMENT_OFF_SHIFT
  let element_offset := u32 (element_offset + array)
  if s.joscr &&& JOSCR_FLAT_ARRAY = 0 then a32_read32 s element_offset
  else .ok element_offset

/-- From jazelle.c `j32_get_array_element_address` (lines 334-346): trap
out of bounds when `index >= length` (the raw length), then return
`start + (index << JAOLR.lenshift)`. -/
def j32_get_array_element_address (s : arm_state_t) (array index : Nat) :
    Except Interrupt Nat := do
  let len ← j32_get_array_length s array
  if len ≤ index then .error (.jazelleBreak J32_EXCEPTION_OUT_OF_BOUNDS)
  else
    let start ← j32_get_array_element_start_address s array
    let shift_value := (s.jaolr &&& JAOLR_LENSHIFT_MASK) >>> JAOLR_LENSHIFT_SHIFT
    .ok (u32 (start + (index <<< shift_value)))

/-! ## Load/store multiple (claim C4) -/

/-- From arm.h `count_bits16`: population count of a `uint16_t`.  The C
`while (value != 0)` loop runs at most 16 times on a 16-bit value; the
iteration count is carried structurally so the function computes by
kernel reduction (the argument is truncated to 16 bits at entry exactly
as the `uint16_t` parameter is). -/
def count_bits16_loop : Nat → Nat → Nat
  | 0, _ => 0
  | fuel + 1, value =>
      if value = 0 then 0
      else (value &&& 1) + count_bits16_loop fuel (value >>> 1)

def count_bits16 (value : Nat) : Nat := count_bits16_loop 16 (value % 65536)

/-- From emu.c `a32_or_a26_copy_flags` (lines 3139-3157). -/
def a32_or_a26_copy_flags (s : arm_state_t) (value : Nat) : arm_state_t :=
  if a32_is_arm26 s then
    let s := a32_set_cpsr_nzcv s value
    if s.pstate.mode ≠ MODE_USR then
      { s with pstate := { s.pstate with
          i := if value &&& CPSR_A26_I ≠ 0 then 1 else 0
          f := if value &&& CPSR_A26_F ≠ 0 then 1 else 0 } }
    else s
  else
    if !a32_spsr_mode_valid s.pstate.mode then s
    else a32_set_cpsr s 4294967295 (a32_get_spsr s)

/-- The address and final-address prologue shared verbatim by `a32_ldm`
(emu.c lines 4473-4508) and `a32_stm` (lines 4546-4581): compute the
start address and writeback value from the direction and
increment-before flags, then apply the alignment policy.  The downward
update constant `-4` is the `uint32_t` value `0xFFFFFFFC`. -/
def a32_block_setup (s : arm_state_t) (register_list stack_register : Nat)
    (upward change_before : Bool) : Except Interrupt (Nat × Nat) := do
  let stacksize := count_bits16 register_list <<< 2
  let address0 := a32_register_get32 s stack_register
  let update := if upward then 4 else 4294967292
  let address1 := if upward then address0 else sub32 address0 (sub32 stacksize 4)
  let final_address := if upward then u32 (address0 + stacksize) else sub32 address1 4
  let address2 := if change_before then u32 (address1 + update) else address1
  let address3 ← a32_align_or_mask s address2 3
  .ok (address3, final_address)

/-- The register loop of emu.c `a32_ldm` (lines 4512-4522): registers 0
to 14 in ascending order, each listed one loaded from the next word.
The `register_number < 15` guard is carried as the structurally
decreasing count of remaining iterations (`remaining = 15 -
register_number` throughout). -/
def a32_ldm_loop (register_list : Nat) (user_mode : Bool) :
    Nat → arm_state_t → Nat → Nat → Except Interrupt (arm_state_t × Nat)
  | 0, s, address, _ => .ok (s, address)
  | remaining + 1, s, address, register_number =>
      if register_list &&& (1 <<< register_number) ≠ 0 then
        match a32_read32 s address with
        | .error e => .error e
        | .ok v =>
            let s := if user_mode then { s with r := updR s.r register_number v }
              else a32_register_set32_interworking_v5 s register_number v
            a32_ldm_loop register_list user_mode remaining s (u32 (address + 4))
              (register_number + 1)
      else a32_ldm_loop register_list user_mode remaining s address (register_number + 1)

/-- From emu.c `a32_ldm` (lines 4471-4542). -/
def a32_ldm (s : arm_state_t) (register_list stack_register : Nat)
    (upward change_before writeback include_cpsr : Bool) : Except Interrupt arm_state_t := do
  let setup ← a32_block_setup s register_list stack_register upward change_before
  let address := setup.1
  let final_address := setup.2
  let user_mode := register_list &&& 0x8000 = 0 && include_cpsr && !writeback
  let _ ← a26_check_address s address
  let loopRes ← a32_ldm_loop register_list user_mode 15 s address 0
  let s1 := loopRes.1
  let s2 ←
    if register_list &&& 0x8000 ≠ 0 then do
      let word ← a32_read32 s1 loopRes.2
      let s1 := { s1 with r := updR s1.r PC (word &&& 0xFFFFFFFE) }
      let s1 := if s1.features.testBit FEATURE_THUMB then
          { s1 with pstate := { s1.pstate with
              jt := if word &&& 1 ≠ 0 then PSTATE_JT_THUMB else PSTATE_JT_ARM } }
        else s1
      if include_cpsr then pure (a32_or_a26_copy_flags s1 word) else pure s1
    else pure s1
  let s3 := if writeback && register_list &&& (1 <<< stack_register) = 0 then
      a32_register_set32 s2 stack_register final_address
    else s2
  .ok s3

/-- The register loop of emu.c `a32_stm` (lines 4593-4610): registers 0
to 15 in ascending order, each listed one stored to the next word (R15
gains the stored-PC displacement).  The `register_number < 16` guard is
carried as the structurally decreasing count of remaining iterations. -/
def a32_stm_loop (register_list : Nat) (user_mode : Bool) :
    Nat → arm_state_t → Nat → Nat → Except Interrupt (arm_state_t × Nat)
  | 0, s, address, _ => .ok (s, address)
  | remaining + 1, s, address, register_number =>
      if register_list &&& (1 <<< register_number) ≠ 0 then
        let value := if user_mode then u32 (s.r register_number)
          else a32_register_get32_lhs s register_number
        let value := if register_number = A32_PC_NUM then
            u32 (value + a32_get_stored_pc_displacement s) else value
        match a32_write32 s address value with
        | .error e => .error e
        | .ok s1 =>
            a32_stm_loop register_list user_mode remaining s1 (u32 (address + 4))
              (register_number + 1)
      else a32_stm_loop register_list user_mode remaining s address (register_number + 1)

/-- From emu.c `a32_stm` (lines 4544-4616).  The base register is
written back BEFORE the store loop when it is not the lowest listed
register, and AFTER the loop when it is. -/
def a32_stm (s : arm_state_t) (register_list stack_register : Nat)
    (upward change_before writeback user_mode : Bool) : Except Interrupt arm_state_t := do
  let setup ← a32_block_setup s register_list stack_register upward change_before
  let address := setup.1
  let final_address := setup.2
  let test_mask := (1 <<< (stack_register + 1)) - 1
  let test_value := 1 <<< stack_register
  let stack_register_is_lowest := register_list &&& test_mask = test_value
  let s := if !stack_register_is_lowest && writeback then
      a32_register_set32 s stack_register final_address else s
  let _ ← a26_check_address s address
  let loopRes ← a32_stm_loop register_list user_mode 16 s address 0
  let s2 := if stack_register_is_lowest && writeback then
      a32_register_set32 loopRes.1 stack_register final_address else loopRes.1
  .ok s2

/-! ## Concrete states used by witnesses and counterexamples -/

/-- An all-zero PSTATE in 32-bit ARM state, supervisor mode. -/
def basePstate : arm_pstate_t :=
  { rw := PSTATE_RW_32, mode := MODE_SVC, f := 0, i := 0, jt := PSTATE_JT_ARM, q := 0,
    a := 0, ge := 0, e := 0, it := 0, sp := 0, el := 0, d := 0, il := 0, ss := 0,
    pan := 0, uao := 0, v := 0, c := 0, z := 0, n := 0 }

/-- A memory interface holding zero everywhere and accepting every access. -/
def memAll0 : memory_interface_t := { bytes := fun _ => 0, valid := fun _ _ => true }

/-- A concrete ARMv7 processor in A32 supervisor mode with little-endian
data, an empty exclusive monitor and permissive memory. -/
def baseState : arm_state_t :=
  { version := ARMV7, features := 1 <<< FEATURE_ARM32, supported_isas := 1 <<< ISA_AARCH32,
    lowest_64bit_only_el := 4, el2_supported := false, el3_supported := false,
    capture_breaks := false, result := arm_emu_result_t.ok, r := fun _ => 0, old_pc := 0,
    pstate := basePstate, exclusive_procid := 0, exclusive_start := 1, exclusive_end := 0,
    teehbr := 0, jidr := 0, joscr := 0, jmcr := 0, jaolr := 0,
    sctlr_el1 := 0, sctlr_el2 := 0, sctlr_el3 := 0, scr_el3 := 0, hcr_el2 := 0,
    vbar_el1 := 0, vbar_el2 := 0, vbar_el3 := 0, memory := memAll0 }

/-- State for the C2 evaluation: capture mode, about to deliver an
undefined-instruction fault. -/
def undefCapState : arm_state_t :=
  { baseState with capture_breaks := true, old_pc := 0x8000 }

/-- State inside an IT block (IT state byte 0xA5: condition 0xA, three
slots remaining) with capture mode set. -/
def itCapState : arm_state_t :=
  { baseState with
    capture_breaks := true
    pstate := { basePstate with jt := PSTATE_JT_THUMB, it := 0xA5 } }

/-- State whose live exclusive monitor covers exactly the byte range
[5, 5] while register r1 holds the word-aligned address 4: the
STREX target [4, 7] overlaps the monitor but is not contained in it. -/
def strexCexState : arm_state_t :=
  { baseState with
    exclusive_start := 5
    exclusive_end := 5
    r := fun i => if i = 1 then 4 else 0 }

/-- Memory whose backing bytes at 4..7 are 44 33 22 11, so that BE-32
byte reads at the aligned word address 4 return 11 22 33 44 in order. -/
def memC7 : memory_interface_t :=
  { bytes := fun a =>
      if a = 4 then 0x44 else if a = 5 then 0x33 else if a = 6 then 0x22
      else if a = 7 then 0x11 else 0,
    valid := fun _ _ => true }

/-- Jazelle array state for C8: JAOLR.lenshift = 1, zero length/element
offsets, flat arrays, and an array at 0x100 whose in-memory length word
is 2. -/
def jazelleC8State : arm_state_t :=
  { baseState with
    jaolr := 1 <<< JAOLR_LENSHIFT_SHIFT,
    joscr := JOSCR_FLAT_ARRAY,
    memory := { bytes := fun a => if a = 0x100 then 2 else 0, valid := fun _ _ => true } }

/-- State for the C9 RRX witness: r2 = 5 (odd) and carry set. -/
def rrxState : arm_state_t :=
  { baseState with
    r := fun i => if i = 2 then 5 else 0
    pstate := { basePstate with c := 1 } }

/-- State for the C4 witnesses: r1 = 256 as the LDM/STM base address,
r2 = 0xAB, and memory whose byte at address a is a mod 256. -/
def ldmStmState : arm_state_t :=
  { baseState with
    r := fun i => if i = 1 then 256 else if i = 2 then 0xAB else 0,
    memory := { bytes := fun a => a % 256, valid := fun _ _ => true } }

/-- Number of listed registers with index in `[k, i)` (the word offset
contributed by the registers below `i` once the loop has reached `k`). -/
def bits_between (register_list k i : Nat) : Nat :=
  (List.range' k (i - k)).countP (fun t => register_list.testBit t)

/-- Number of listed registers strictly below `i`. -/
def bits_below (register_list i : Nat) : Nat := bits_between register_list 0 i

/-- The physical slot written by iteration `i` of the LDM loop: the raw
slot `i` on the user-bank path, the mode-resolved slot otherwise. -/
def ldm_slot (s : arm_state_t) (user : Bool) (i : Nat) : Nat :=
  if user then i else a32_register_mode_idx s i s.pstate.mode

/-- The value iteration `i` of the STM loop stores (mirrors the loop
body of `a32_stm`). -/
def stm_value (s : arm_state_t) (user : Bool) (i : Nat) : Nat :=
  let value := if user then u32 (s.r i) else a32_register_get32_lhs s i
  if i = A32_PC_NUM then u32 (value + a32_get_stored_pc_displacement s) else value

/-- The mode rows used by the LDM/STM theorems: the current mode is a
4-bit value and the alias row for the current bank maps distinct logical
registers below 15 to distinct physical slots (true of every
architecturally reachable mode; fails only for the reserved rows whose
`NONE` entries are out-of-bounds reads in C). -/
def a32_mode_inj (s : arm_state_t) : Prop :=
  ∀ i, i < 15 → ∀ j, j < 15 → i ≠ j →
    a32_register_mode_idx s i s.pstate.mode ≠ a32_register_mode_idx s j s.pstate.mode

instance (s : arm_state_t) : Decidable (a32_mode_inj s) := by
  unfold a32_mode_inj
  infer_instance

/-! ## General helper lemmas -/

theorem except_bind_ok {ε α β : Type} (a : α) (f : α → Except ε β) :
    (Except.ok a : Except ε α) >>= f = f a := rfl

theorem except_bind_error {ε α β : Type} (e : ε) (f : α → Except ε β) :
    (Except.error e : Except ε α) >>= f = Except.error e := rfl

theorem ite_pstate_it (c : Prop) [Decidable c] (a b : arm_state_t) :
    (if c then a else b).pstate.it = if c then a.pstate.it else b.pstate.it := by
  split <;> rfl

theorem ite_excl_start (c : Prop) [Decidable c] (a b : arm_state_t) :
    (if c then a else b).exclusive_start = if c then a.exclusive_start else b.exclusive_start := by
  split <;> rfl

theorem ite_excl_end (c : Prop) [Decidable c] (a b : arm_state_t) :
    (if c then a else b).exclusive_end = if c then a.exclusive_end else b.exclusive_end := by
  split <;> rfl

/-! ## Claim C3 -/

/-- C3 (code bug): the spec states the standard ARM predicates, in
particular GT = "Z clear and N = V" and LE = "Z set or N differs from
V".  The source (emu.c lines 2147-2152) tests Z with the opposite
polarity in exactly these two cases: with all four flags clear (so Z is
clear and N = V, the canonical signed greater-than situation) the
embedded `a32_check_condition` returns false for GT (code 0xC) and true
for LE (code 0xD).  The remaining fourteen condition codes do follow the
architectural definitions. -/
theorem C3_gt_le_z_polarity_inverted :
    baseState.pstate.z = 0 ∧ baseState.pstate.n = baseState.pstate.v ∧
    a32_check_condition baseState 12 = false ∧
    a32_check_condition baseState 13 = true := by decide

/-! ## Claim C6 -/

/-- C6 (code bug): `clz32` meets the claimed specification (`clz32 0 =
32` and `clz32 (1 <<< k) = 31 - k`), but `clz64` tests bit `64 -
position` instead of `63 - position`, so on the input `1 <<< 63` it
returns 1 where the claim requires 64 - 1 - 63 = 0 (and on `1 <<< k` in
general it returns `64 - k`, one too many). -/
theorem C6_clz64_off_by_one :
    clz32 0 = 32 ∧ (∀ k < 32, clz32 (1 <<< k) = 31 - k) ∧
    clz64 0 = 64 ∧ clz64 (1 <<< 63) = 1 ∧ (1 : Nat) ≠ 0 := by decide

/-- Witness instantiating the bounded quantifier of
`C6_clz64_off_by_one` at k = 7. -/
theorem C6_clz64_off_by_one_witness : clz32 (1 <<< 7) = 31 - 7 :=
  C6_clz64_off_by_one.2.1 7 (by decide)

/-! ## Claim C5 -/

set_option maxRecDepth 4000 in
/-- C5 counterexample: the claim says that under ARMv1 the alias table
leaves logical R10 and R11 of FIQ mode on the shared user slots 10 and
11.  In the compiled array the single FIQ row (the `// ARMv1`
initializer block overrides rows 0-63, and its FIQ row is the one that
survives) maps R10 and R11 to the banked slots `R10_FIQ` (26) and
`R11_FIQ` (27) - the registers left on shared slots are R8 and R9 - and
no ARMv1-specific row exists at all: the array ends at index 255 while
the ARMv1 branch of the `a32_register_mode` macro starts reading at
index 256. -/
theorem C5_counterexample :
    ¬ (a32_register_for_mode (MODE_FIQ * 16 + 10) = (10 : Int) ∧
       a32_register_for_mode (MODE_FIQ * 16 + 11) = (11 : Int)) ∧
    a32_register_for_mode (MODE_FIQ * 16 + 10) = (R10_FIQ : Int) ∧
    a32_register_for_mode (MODE_FIQ * 16 + 11) = (R11_FIQ : Int) ∧
    a32_register_for_mode (MODE_FIQ * 16 + 8) = (8 : Int) ∧
    a32_register_for_mode (MODE_FIQ * 16 + 9) = (9 : Int) ∧
    a32_register_for_mode_table.length = 256 := by decide

set_option maxRecDepth 4000 in
/-- C5 amended: the `// ARMv1` rows override rows 0-63 of the alias
table, so for every configured version other than ARMv1 (the offset-0
bank, which is all the 256-entry array holds) the FIQ row resolves R8
and R9 to the shared slots 8 and 9 and banks R10-R14 to
`R10_FIQ`..`R14_FIQ`; and the index the `a32_register_mode` macro
computes for version ARMv1 - `mode * 16 + regnum + 256` - always lies at
or past the array's end, so no ARMv1-specific banking exists (the read
is out of bounds). -/
theorem C5_fiq_bank_override :
    (∀ s : arm_state_t, s.version ≠ ARMV1 →
      a32_register_mode_idx s 8 MODE_FIQ = 8 ∧
      a32_register_mode_idx s 9 MODE_FIQ = 9 ∧
      a32_register_mode_idx s 10 MODE_FIQ = R10_FIQ ∧
      a32_register_mode_idx s 11 MODE_FIQ = R11_FIQ ∧
      a32_register_mode_idx s 12 MODE_FIQ = R12_FIQ ∧
      a32_register_mode_idx s 13 MODE_FIQ = R13_FIQ ∧
      a32_register_mode_idx s 14 MODE_FIQ = R14_FIQ) ∧
    (∀ regnum mode : Nat,
      a32_register_for_mode_table.length ≤ mode * 16 + regnum + 256) := by
  constructor
  · intro s hv
    unfold a32_register_mode_idx
    rw [if_neg hv]
    decide
  · intro regnum mode
    rw [(show a32_register_for_mode_table.length = 256 by decide)]
    omega

/-- Witness applying `C5_fiq_bank_override` at the concrete ARMv7 state:
logical R8 of FIQ mode resolves to the shared slot 8, logical R10 to the
banked slot `R10_FIQ` = 26. -/
theorem C5_fiq_bank_override_witness :
    baseState.version ≠ ARMV1 ∧
    a32_register_mode_idx baseState 8 MODE_FIQ = 8 ∧
    a32_register_mode_idx baseState 10 MODE_FIQ = R10_FIQ :=
  ⟨by decide, (C5_fiq_bank_override.1 baseState (by decide)).1,
    (C5_fiq_bank_override.1 baseState (by decide)).2.2.1⟩

/-! ## Claim C2 -/

/-- C2 (code bug): whenever `capture_breaks` is set, `arm_undefined`
(the funnel every undefined-encoding path calls) ends the step with
result code `ARM_EMU_SVC`, not the distinct `ARM_EMU_UNDEFINED` that the
claim (and emu.h's enumeration together with main.c's dedicated
`ARM_EMU_UNDEFINED` handler) prescribes for fetch/decode errors. -/
theorem C2_arm_undefined_captures_svc :
    ∀ s : arm_state_t, s.capture_breaks = true →
      (arm_undefined s).result = arm_emu_result_t.svc ∧
      arm_emu_result_t.svc ≠ arm_emu_result_t.undefined := by
  intro s hc
  refine ⟨?_, by decide⟩
  unfold arm_undefined
  simp only [hc]
  rfl

/-- Witness applying `C2_arm_undefined_captures_svc` to the concrete
capture-mode state. -/
theorem C2_arm_undefined_captures_svc_witness :
    (arm_undefined undefCapState).result = arm_emu_result_t.svc ∧
    arm_emu_result_t.svc ≠ arm_emu_result_t.undefined :=
  C2_arm_undefined_captures_svc undefCapState rfl

/-! ## Claim C10 -/

/-- C10: when a fault is captured mid-IT-block, `arm_break_emulation`
advances the IT state by exactly one slot before recording the result
code: with further slots pending (low three bits nonzero) the new state
is `(it & 0xE0) | ((it << 1) & 0x1F)`, which is nonzero, i.e. the block
is not abandoned.  Only the architectural exception entries
(`a32_exception`, `a64_exception`) zero the IT state. -/
theorem C10_capture_advances_it_exceptions_zero_it :
    ∀ (s s2 s3 : arm_state_t) (res : arm_emu_result_t) (a2 m2 a3 m3 : Nat),
      s.pstate.it &&& 0xF ≠ 0 → s.pstate.it &&& 0x7 ≠ 0 →
      ((arm_break_emulation s res).pstate.it =
          ((s.pstate.it &&& 0xE0) ||| ((s.pstate.it <<< 1) &&& 0x1F)) % 256 ∧
        (arm_break_emulation s res).pstate.it ≠ 0 ∧
        (arm_break_emulation s res).result = res) ∧
      (a32_exception s2 a2 m2).pstate.it = 0 ∧
      (a64_exception s3 a3 m3).pstate.it = 0 := by
  intro s s2 s3 res a2 m2 a3 m3 hIn h7
  have hval : (arm_break_emulation s res).pstate.it =
      ((s.pstate.it &&& 0xE0) ||| ((s.pstate.it <<< 1) &&& 0x1F)) % 256 := by
    simp [arm_break_emulation, t32_advance_it, t32_in_it_block, hIn, h7]
  refine ⟨⟨hval, ?_, by simp [arm_break_emulation]⟩, ?_, ?_⟩
  · rw [hval]
    have h31 : (s.pstate.it <<< 1) &&& 31 = (s.pstate.it <<< 1) % 32 :=
      Nat.and_pow_two_sub_one_eq_mod _ 5
    have hsh : s.pstate.it <<< 1 = 2 * s.pstate.it := by
      rw [Nat.shiftLeft_eq]; ring
    have h7m : s.pstate.it &&& 7 = s.pstate.it % 8 := Nat.and_pow_two_sub_one_eq_mod _ 3
    have hnz : (s.pstate.it <<< 1) &&& 31 ≠ 0 := by
      rw [h31, hsh]
      rw [h7m] at h7
      omega
    have hle : (s.pstate.it <<< 1) &&& 31 ≤
        (s.pstate.it &&& 0xE0) ||| ((s.pstate.it <<< 1) &&& 0x1F) := by
      apply Nat.le_of_testBit
      intro i hi
      simp [Nat.testBit_or, hi]
    have hlt : (s.pstate.it &&& 0xE0) ||| ((s.pstate.it <<< 1) &&& 0x1F) < 256 := by
      have ha : s.pstate.it &&& 0xE0 < 2 ^ 8 :=
        Nat.lt_of_le_of_lt Nat.and_le_right (by norm_num)
      have hb : (s.pstate.it <<< 1) &&& 0x1F < 2 ^ 8 :=
        Nat.lt_of_le_of_lt Nat.and_le_right (by norm_num)
      exact Nat.or_lt_two_pow ha hb
    rw [Nat.mod_eq_of_lt hlt]
    omega
  · simp [a32_exception, ite_pstate_it]
  · simp [a64_exception, ite_pstate_it]

/-- Witness applying `C10_capture_advances_it_exceptions_zero_it` to a
capture-mode state whose IT byte is 0xA5: the capture path advances it
to 0xAA while architectural exception entry zeroes it. -/
theorem C10_capture_advances_it_witness :
    (arm_break_emulation itCapState arm_emu_result_t.undefined).pstate.it = 0xAA ∧
    (a32_exception baseState A32_VECTOR_UNDEFINED MODE_UND).pstate.it = 0 :=
  ⟨(C10_capture_advances_it_exceptions_zero_it itCapState baseState baseState
      arm_emu_result_t.undefined A32_VECTOR_UNDEFINED MODE_UND 0 1
      (by decide) (by decide)).1.1,
   (C10_capture_advances_it_exceptions_zero_it itCapState baseState baseState
      arm_emu_result_t.undefined A32_VECTOR_UNDEFINED MODE_UND 0 1
      (by decide) (by decide)).2.1⟩

/-! ## Claim C9 -/

/-- Helper: the arithmetic shift by 31 replicates bit 31 across the
word. -/
theorem sar32_31 (x : Nat) (hx : x < 4294967296) :
    sar32 x 31 = if x.testBit 31 then 0xFFFFFFFF else 0 := by
  have e31 : (2 : Nat) ^ 31 = 2147483648 := by norm_num
  have hsr : x >>> 31 = x / 2147483648 := by
    rw [Nat.shiftRight_eq_div_pow, e31]
  have htb : x.testBit 31 = decide (x / 2147483648 % 2 = 1) := by
    rw [Nat.testBit_to_div_mod, e31]
  unfold sar32
  rcases hcase : x.testBit 31 with _ | _
  · rw [hcase] at htb
    have hP : ¬ (x / 2147483648 % 2 = 1) := of_decide_eq_false htb.symm
    have h0 : x / 2147483648 = 0 := by omega
    simp [hcase, hsr, h0]
  · rw [hcase] at htb
    have hP : x / 2147483648 % 2 = 1 := of_decide_eq_true htb.symm
    have h1 : x / 2147483648 = 1 := by omega
    norm_num [hcase, hsr, h1]

/-- C9: the barrel-shifter boundary cases.  `LSL #32` yields 0 with
carry = bit 0; `LSR #32` yields 0 with carry = bit 31; `ASR` by any
amount of at least 32 yields 0xFFFFFFFF when bit 31 is set and 0
otherwise, with carry = bit 31; and an operand encoded with shift type
ROR and immediate amount 0 (`opcode & 0xFF0 == 0x060`) is executed by
`a32_get_register_operand` exactly as `a32_rrx32`: result
`(Rm >> 1) | (C << 31)` with carry-out = bit 0 of Rm. -/
theorem C9_shifter_boundary :
    ∀ (s : arm_state_t) (x amount opcode : Nat), x < 4294967296 → 32 ≤ amount →
      ((a32_lsl32 s x 32 true).1 = 0 ∧
       (a32_lsl32 s x 32 true).2.pstate.c = (x &&& 1) ∧
       (a32_lsr32 s x 32 true).1 = 0 ∧
       (a32_lsr32 s x 32 true).2.pstate.c = (x >>> 31) &&& 1 ∧
       (a32_asr32 s x amount true).1 = (if x.testBit 31 then 0xFFFFFFFF else 0) ∧
       (a32_asr32 s x amount true).2.pstate.c = (x >>> 31) &&& 1) ∧
      (opcode &&& 0xFF0 = 0x60 →
        a32_get_register_operand s opcode true =
          a32_rrx32 s (a32_register_get32 s (opcode &&& 0xF)) true ∧
        (a32_rrx32 s (a32_register_get32 s (opcode &&& 0xF)) true).1 =
          u32 ((a32_register_get32 s (opcode &&& 0xF) >>> 1) ||| (s.pstate.c <<< 31)) ∧
        (a32_rrx32 s (a32_register_get32 s (opcode &&& 0xF)) true).2.pstate.c =
          a32_register_get32 s (opcode &&& 0xF) &&& 1) := by
  intro s x amount opcode hx hamt
  constructor
  · have hne : amount ≠ 0 := by omega
    have hnl : ¬ amount < 32 := by omega
    refine ⟨by simp [a32_lsl32], by simp [a32_lsl32], by simp [a32_lsr32],
      by simp [a32_lsr32], ?_, ?_⟩
    · simp [a32_asr32, hne, hnl, sar32_31 x hx]
    · by_cases h32 : amount ≤ 32
      · have h : amount = 32 := by omega
        subst h
        simp [a32_asr32]
      · simp [a32_asr32, hne, h32]
  · intro hop
    have h1 : ¬ (opcode &&& 0xFF0 = 0) := by rw [hop]; decide
    refine ⟨?_, rfl, rfl⟩
    unfold a32_get_register_operand a32_rrx32
    rw [hop]
    simp

/-- Witness applying `C9_shifter_boundary` at x = 5, amount = 33 and the
opcode 0x62 (operand register r2, shift field ROR #0). -/
theorem C9_shifter_boundary_witness :
    (a32_asr32 rrxState 5 33 true).1 = 0 ∧
    a32_get_register_operand rrxState 0x62 true =
      a32_rrx32 rrxState (a32_register_get32 rrxState (0x62 &&& 0xF)) true :=
  ⟨by
    have h := (C9_shifter_boundary rrxState 5 33 0x62 (by decide) (by decide)).1.2.2.2.2.1
    simpa using h,
   ((C9_shifter_boundary rrxState 5 33 0x62 (by decide) (by decide)).2 (by decide)).1⟩

/-! ## Claim C7 -/

/-- Helper: XOR only touches the two low bits when the other operand is
below 4. -/
theorem xor_low2 (q a b : Nat) (ha : a < 4) (hb : b < 4) :
    (4 * q + a) ^^^ b = 4 * q + (a ^^^ b) := by
  have h22 : (2 : Nat) ^ 2 = 4 := by norm_num
  have ha2 : a < 2 ^ 2 := by simpa [h22] using ha
  have hb2 : b < 2 ^ 2 := by simpa [h22] using hb
  have hxab : a ^^^ b < 2 ^ 2 := Nat.xor_lt_two_pow ha2 hb2
  apply Nat.eq_of_testBit_eq
  intro j
  rw [Nat.testBit_xor]
  rw [show 4 * q + a = 2 ^ 2 * q + a by rw [h22]]
  rw [show 4 * q + (a ^^^ b) = 2 ^ 2 * q + (a ^^^ b) by rw [h22]]
  rw [Nat.testBit_mul_pow_two_add q ha2 j, Nat.testBit_mul_pow_two_add q hxab j]
  by_cases hj : j < 2
  · simp [hj, Nat.testBit_xor]
  · have hble : b < 2 ^ j := by
      have hle : (2 : Nat) ^ 2 ≤ 2 ^ j := Nat.pow_le_pow_right (by norm_num) (by omega)
      omega
    have hbj : b.testBit j = false := Nat.testBit_lt_two_pow hble
    simp [hj, hbj]

theorem xor3_lt (a : Nat) (ha : a < 4294967296) : a ^^^ 3 < 4294967296 := by
  have e : (2 : Nat) ^ 32 = 4294967296 := by norm_num
  have h1 : a < 2 ^ 32 := e.symm ▸ ha
  have h2 : (3 : Nat) < 2 ^ 32 := by norm_num
  have h := Nat.xor_lt_two_pow h1 h2
  exact e ▸ h

/-- Helper: unpack a successful BE-32 byte read into the validity and
the backing byte at the flipped address. -/
theorem read8_swapped_elim (m : memory_interface_t) (a v : Nat) (p : Bool)
    (h : memory_read8 m a ARM_ENDIAN_SWAPPED p = some v) :
    m.valid (a ^^^ 3) p = true ∧ m.bytes (a ^^^ 3) % 256 = v := by
  unfold memory_read8 memReadBytes at h
  rw [show (if ARM_ENDIAN_SWAPPED = ARM_ENDIAN_SWAPPED then 3 else 0) = 3 from rfl] at h
  simp only [show List.range 1 = [0] from by decide, List.all_cons, List.all_nil,
    List.map_cons, List.map_nil, Nat.add_zero, Bool.and_true] at h
  split_ifs at h with hv
  refine ⟨hv, ?_⟩
  simpa using h

/-- Helper: a BE-32 16-bit read at an address whose low two bits are not
both set fetches the byte pair at `(a ^^^ 3) - 1` and parses it
little-endian. -/
theorem memory_read16_swapped_notlast (m : memory_interface_t) (a : Nat) (p : Bool)
    (ha : a < 4294967296) (hne : a &&& 3 ≠ 3) (h1 : 1 ≤ a ^^^ 3)
    (hv0 : m.valid ((a ^^^ 3) - 1) p = true) (hv1 : m.valid ((a ^^^ 3) - 1 + 1) p = true) :
    memory_read16 m a ARM_ENDIAN_SWAPPED p =
      some (m.bytes ((a ^^^ 3) - 1) % 256 + 256 * (m.bytes ((a ^^^ 3) - 1 + 1) % 256)) := by
  have hxlt : a ^^^ 3 < 4294967296 := xor3_lt a ha
  have hu : u32 a = a := Nat.mod_eq_of_lt ha
  have hsub : sub32 (a ^^^ 3) 1 = (a ^^^ 3) - 1 := by
    unfold sub32
    omega
  unfold memory_read16 memory_read_bytes16 memReadBytes
  simp only [hu, hsub]
  simp only [show List.range 2 = [0, 1] by decide, List.all_cons, List.all_nil,
    List.map_cons, List.map_nil, Nat.add_zero, Bool.and_true]
  simp [hne, hv0, hv1, le16_parse, ARM_ENDIAN_SWAPPED, ARM_ENDIAN_BIG]

/-- C7: in BE-32 data endianness, with the guest-visible memory bytes at
the aligned word address A = 4q reading 11 22 33 44 (stated through the
code's own byte-read primitive, which applies the `address ^ 3` flip), a
16-bit read at A returns 0x1122 and a 16-bit read at A + 2 returns
0x3344. -/
theorem C7_be32_halfword_reads :
    ∀ (m : memory_interface_t) (q : Nat) (p : Bool),
      4 * q + 3 < 4294967296 →
      memory_read8 m (4 * q) ARM_ENDIAN_SWAPPED p = some 0x11 →
      memory_read8 m (4 * q + 1) ARM_ENDIAN_SWAPPED p = some 0x22 →
      memory_read8 m (4 * q + 2) ARM_ENDIAN_SWAPPED p = some 0x33 →
      memory_read8 m (4 * q + 3) ARM_ENDIAN_SWAPPED p = some 0x44 →
      memory_read16 m (4 * q) ARM_ENDIAN_SWAPPED p = some 0x1122 ∧
      memory_read16 m (4 * q + 2) ARM_ENDIAN_SWAPPED p = some 0x3344 := by
  intro m q p hq h0 h1 h2 h3
  have hx0 : (4 * q) ^^^ 3 = 4 * q + 3 := by
    have h := xor_low2 q 0 3 (by omega) (by omega)
    simpa using h
  have hx1 : (4 * q + 1) ^^^ 3 = 4 * q + 2 := by
    have h := xor_low2 q 1 3 (by omega) (by omega)
    rw [show (1 : Nat) ^^^ 3 = 2 by decide] at h
    exact h
  have hx2 : (4 * q + 2) ^^^ 3 = 4 * q + 1 := by
    have h := xor_low2 q 2 3 (by omega) (by omega)
    rw [show (2 : Nat) ^^^ 3 = 1 by decide] at h
    exact h
  have hx3 : (4 * q + 3) ^^^ 3 = 4 * q := by
    have h := xor_low2 q 3 3 (by omega) (by omega)
    simpa using h
  have e0 := read8_swapped_elim m (4 * q) 0x11 p h0
  have e1 := read8_swapped_elim m (4 * q + 1) 0x22 p h1
  have e2 := read8_swapped_elim m (4 * q + 2) 0x33 p h2
  have e3 := read8_swapped_elim m (4 * q + 3) 0x44 p h3
  rw [hx0] at e0
  rw [hx1] at e1
  rw [hx2] at e2
  rw [hx3] at e3
  have hand0 : 4 * q &&& 3 = 0 := by
    have h := Nat.and_pow_two_sub_one_eq_mod (4 * q) 2
    norm_num at h
    omega
  have hand2 : (4 * q + 2) &&& 3 = 2 := by
    have h := Nat.and_pow_two_sub_one_eq_mod (4 * q + 2) 2
    norm_num at h
    omega
  constructor
  · have hr := memory_read16_swapped_notlast m (4 * q) p (by omega)
      (by omega) (by omega) (by rw [hx0]; simpa using e1.1) (by rw [hx0]; simpa using e0.1)
    rw [hx0] at hr
    simp only [show 4 * q + 3 - 1 = 4 * q + 2 by omega] at hr
    rw [hr]
    simp only [show 4 * q + 2 + 1 = 4 * q + 3 by omega, e1.2, e0.2]
  · have hr := memory_read16_swapped_notlast m (4 * q + 2) p (by omega)
      (by omega) (by omega) (by rw [hx2]; simpa using e3.1) (by rw [hx2]; simpa using e2.1)
    rw [hx2] at hr
    simp only [show 4 * q + 1 - 1 = 4 * q by omega] at hr
    rw [hr]
    simp only [show 4 * q + 0 + 1 = 4 * q + 1 by omega, e3.2, e2.2]

/-! ## Claim C8 -/

/-- C8 counterexample: the claim says the bound check compares the index
against the in-memory length shifted right by JAOLR.lenshift.  In
`jazelleC8State` the stored length is 2 and lenshift is 1, so the
claimed check would trap index 1 (1 is not below the shifted length
2 >> 1 = 1); the code compares against the RAW length (the shift is
commented out in jazelle.c lines 317-320) and returns the element
address 0x102 instead of the out-of-bounds trap. -/
theorem C8_counterexample :
    j32_get_array_length jazelleC8State 0x100 = .ok 2 ∧
    (jazelleC8State.jaolr &&& JAOLR_LENSHIFT_MASK) >>> JAOLR_LENSHIFT_SHIFT = 1 ∧
    (2 >>> 1 : Nat) ≤ 1 ∧
    j32_get_array_element_address jazelleC8State 0x100 1 = .ok 0x102 ∧
    (Except.ok 0x102 : Except Interrupt Nat) ≠
      .error (.jazelleBreak J32_EXCEPTION_OUT_OF_BOUNDS) := by
  refine ⟨rfl, rfl, by decide, rfl, ?_⟩
  intro h
  cases h

/-- C8 amended: the Jazelle array bound check compares the index against
the RAW length word read from memory (JAOLR.lenshift is not applied to
the length; it is applied as the element stride): an index at or above
the raw length traps out-of-bounds via `j32_break`, and a lower index
yields the element address `start + (index << lenshift)`. -/
theorem C8_bound_check_uses_raw_length :
    ∀ (s : arm_state_t) (array index len start : Nat),
      j32_get_array_length s array = .ok len →
      j32_get_array_element_start_address s array = .ok start →
      (len ≤ index →
        j32_get_array_element_address s array index =
          .error (.jazelleBreak J32_EXCEPTION_OUT_OF_BOUNDS)) ∧
      (index < len →
        j32_get_array_element_address s array index =
          .ok (u32 (start + (index <<<
            ((s.jaolr &&& JAOLR_LENSHIFT_MASK) >>> JAOLR_LENSHIFT_SHIFT))))) := by
  intro s array index len start hlen hstart
  constructor
  · intro hle
    unfold j32_get_array_element_address
    rw [hlen]
    simp only [except_bind_ok]
    simp [hle]
  · intro hlt
    have hnle : ¬ len ≤ index := by omega
    unfold j32_get_array_element_address
    rw [hlen]
    simp only [except_bind_ok]
    simp only [hnle, if_false]
    rw [hstart]
    simp only [except_bind_ok]

/-- Witness applying `C8_bound_check_uses_raw_length` to the concrete
Jazelle state: index 1 is accepted against the raw length 2 (stride
`1 << 1`), index 7 traps. -/
theorem C8_bound_check_uses_raw_length_witness :
    j32_get_array_element_address jazelleC8State 0x100 1 =
      .ok (u32 (0x100 + (1 <<< ((jazelleC8State.jaolr &&& JAOLR_LENSHIFT_MASK) >>>
        JAOLR_LENSHIFT_SHIFT)))) ∧
    j32_get_array_element_address jazelleC8State 0x100 7 =
      .error (.jazelleBreak J32_EXCEPTION_OUT_OF_BOUNDS) :=
  ⟨(C8_bound_check_uses_raw_length jazelleC8State 0x100 1 2 0x100 rfl rfl).2 (by decide),
   (C8_bound_check_uses_raw_length jazelleC8State 0x100 7 2 0x100 rfl rfl).1 (by decide)⟩

/-! ## Claim C1 -/

/-- C1 counterexample: with a live monitor covering exactly byte 5 and a
STREX word store targeting [4, 7] (address 4 in r1), the store-exclusive
SUCCEEDS (performs the store and returns 0) although its target byte
range is not contained in the live range: the source's
`a32_check_exclusive` is an overlap test, not a containment test. -/
theorem C1_counterexample :
    strexCexState.exclusive_start ≤ strexCexState.exclusive_end ∧
    (∃ s1, a32_strex strexCexState 0xAB 1 0 = .ok (0, s1)) ∧
    ¬ (strexCexState.exclusive_start ≤ 4 ∧ 4 + 4 - 1 ≤ strexCexState.exclusive_end) := by
  refine ⟨by decide, ⟨_, rfl⟩, by decide⟩

/-- C1 amended: a store-exclusive succeeds if and only if its target
range OVERLAPS the live range (`exclusive_start < addr + size ∧ addr ≤
exclusive_end`), with STREXD checking only a 4-byte range; and the
monitor is never cleared: exception entry (both A32 and A64) and
ordinary stores leave `exclusive_start`/`exclusive_end` unchanged, the
clearing helper `a32_clear_exclusive` (which would set the empty range
start = 0xFFFFFFFF > end = 0) having no caller. -/
theorem C1_strex_overlap_no_clearing :
    ∀ (s : arm_state_t) (value base offset addr o1 o2 offsetd addrd : Nat)
      (s2 : arm_state_t) (a2 m2 : Nat) (s3 : arm_state_t) (a3 m3 : Nat)
      (s4 : arm_state_t) (a4 v4 : Nat) (s4' : arm_state_t),
      e32_check_nullptr s (strex_base_address s base) = .ok () →
      a32_align_or_mask s (u32 (strex_base_address s base + offset)) 3 = .ok addr →
      a26_check_address s addr = .ok () →
      (∃ s1, a32_write32 s addr value = .ok s1) →
      a32_align_or_mask s (u32 (strex_base_address s base + offsetd)) 7 = .ok addrd →
      a32_write32 s4 a4 v4 = .ok s4' →
      (((∃ s1, a32_strex s value base offset = .ok (0, s1)) ↔
          a32_check_exclusive s addr 4 = true) ∧
        (a32_check_exclusive s addr 4 = true ↔
          (s.exclusive_start < addr + 4 ∧ addr ≤ s.exclusive_end)) ∧
        (a32_strex s value base offset = .ok (1, s) ↔
          a32_check_exclusive s addr 4 = false)) ∧
      (a32_strexd s o1 o2 base offsetd = .ok (1, s) ↔
        a32_check_exclusive s addrd 4 = false) ∧
      ((a32_exception s2 a2 m2).exclusive_start = s2.exclusive_start ∧
        (a32_exception s2 a2 m2).exclusive_end = s2.exclusive_end) ∧
      ((a64_exception s3 a3 m3).exclusive_start = s3.exclusive_start ∧
        (a64_exception s3 a3 m3).exclusive_end = s3.exclusive_end) ∧
      (s4'.exclusive_start = s4.exclusive_start ∧ s4'.exclusive_end = s4.exclusive_end) ∧
      ((a32_clear_exclusive s).exclusive_start = 4294967295 ∧
        (a32_clear_exclusive s).exclusive_end = 0) := by
  intro s value base offset addr o1 o2 offsetd addrd s2 a2 m2 s3 a3 m3 s4 a4 v4 s4'
  intro hnull halign ha26 hwrite haligned hw4
  obtain ⟨s1, hw1⟩ := hwrite
  have hrun : a32_strex s value base offset =
      if a32_check_exclusive s addr 4 then .ok (0, s1) else .ok (1, s) := by
    unfold a32_strex
    dsimp only []
    rw [hnull]
    simp only [except_bind_ok]
    rw [halign]
    simp only [except_bind_ok]
    by_cases hc : a32_check_exclusive s addr 4 = true
    · simp only [hc, if_true]
      rw [ha26]
      simp only [except_bind_ok]
      rw [hw1]
      simp only [except_bind_ok]
    · have hcf : a32_check_exclusive s addr 4 = false := by
        revert hc
        cases a32_check_exclusive s addr 4 <;> simp
      simp only [hcf, Bool.false_eq_true, if_false]
  have hrund : a32_check_exclusive s addrd 4 = false →
      a32_strexd s o1 o2 base offsetd = .ok (1, s) := by
    intro hcf
    unfold a32_strexd
    dsimp only []
    rw [hnull]
    simp only [except_bind_ok]
    rw [haligned]
    simp only [except_bind_ok]
    simp only [hcf, Bool.false_eq_true, if_false]
  have hrund2 : a32_check_exclusive s addrd 4 = true →
      a32_strexd s o1 o2 base offsetd ≠ .ok (1, s) := by
    intro hc
    unfold a32_strexd
    dsimp only []
    rw [hnull]
    simp only [except_bind_ok]
    rw [haligned]
    simp only [except_bind_ok]
    simp only [hc, if_true]
    intro hcontra
    rcases hok : a26_check_address s addrd with e | u
    · rw [hok] at hcontra
      simp only [except_bind_error] at hcontra
      cases hcontra
    · rw [hok] at hcontra
      simp only [except_bind_ok] at hcontra
      rcases hw : a32_write32 s addrd (a32_register_get32 s o1) with e | sw
      · rw [hw] at hcontra
        simp only [except_bind_error] at hcontra
        cases hcontra
      · rw [hw] at hcontra
        simp only [except_bind_ok] at hcontra
        rcases hw2 : a32_write32 sw (u32 (addrd + 4)) (a32_register_get32 sw o2) with e | sw2
        · rw [hw2] at hcontra
          simp only [except_bind_error] at hcontra
          cases hcontra
        · rw [hw2] at hcontra
          simp only [except_bind_ok] at hcontra
          simp at hcontra
  refine ⟨⟨?_, ?_, ?_⟩, ?_, ?_, ?_, ?_, by constructor <;> rfl⟩
  · rw [hrun]
    by_cases hc : a32_check_exclusive s addr 4 = true
    · simp [hc]
    · have hcf : a32_check_exclusive s addr 4 = false := by
        revert hc
        cases a32_check_exclusive s addr 4 <;> simp
      simp [hcf]
  · simp [a32_check_exclusive]
  · rw [hrun]
    by_cases hc : a32_check_exclusive s addr 4 = true
    · simp [hc]
    · have hcf : a32_check_exclusive s addr 4 = false := by
        revert hc
        cases a32_check_exclusive s addr 4 <;> simp
      simp [hcf]
  · constructor
    · intro h
      by_cases hc : a32_check_exclusive s addrd 4 = true
      · exact absurd h (hrund2 hc)
      · revert hc
        cases a32_check_exclusive s addrd 4 <;> simp
    · intro h
      exact hrund h
  · constructor <;> simp [a32_exception, ite_excl_start, ite_excl_end,
      a32_register_mode_set, a32_spsr_mode_set, t32_advance_it]
  · constructor <;> simp [a64_exception, ite_excl_start, ite_excl_end, t32_advance_it]
  · unfold a32_write32 at hw4
    revert hw4
    rcases memory_write32 s4.memory (u32 a4) (u32 v4) (a32_get_data_endianness s4)
        (arm_is_privileged_mode s4) with _ | m
    · intro hw4
      cases hw4
    · intro hw4
      cases hw4
      constructor <;> rfl

/-- Witness applying `C1_strex_overlap_no_clearing` at the concrete
monitor state: the STREX at address 4 succeeds exactly because the
4-byte target overlaps the live range [5, 5]. -/
theorem C1_strex_overlap_no_clearing_witness :
    (∃ s1, a32_strex strexCexState 0xAB 1 0 = .ok (0, s1)) ↔
      a32_check_exclusive strexCexState 4 4 = true :=
  (C1_strex_overlap_no_clearing strexCexState 0xAB 1 0 4 0 0 4 8 baseState 16 11
    baseState 0 1 baseState 0 7 _ rfl rfl rfl ⟨_, rfl⟩ rfl rfl).1.1

/-- Witness applying `C7_be32_halfword_reads` to the concrete memory
image at word address 4. -/
theorem C7_be32_halfword_reads_witness :
    memory_read16 memC7 (4 * 1) ARM_ENDIAN_SWAPPED true = some 0x1122 ∧
    memory_read16 memC7 (4 * 1 + 2) ARM_ENDIAN_SWAPPED true = some 0x3344 :=
  C7_be32_halfword_reads memC7 1 true (by decide) (by decide) (by decide)
    (by decide) (by decide)

/-! ## Arithmetic and bit-vector helper lemmas for C4 -/

theorem u32_lt (a : Nat) : u32 a < 4294967296 := Nat.mod_lt _ (by norm_num)

theorem u32_of_lt {a : Nat} (h : a < 4294967296) : u32 a = a := Nat.mod_eq_of_lt h

theorem u32_add_left (a b : Nat) : u32 (u32 a + b) = u32 (a + b) :=
  Nat.mod_add_mod a 4294967296 b

theorem and3_eq_mod4 (a : Nat) : a &&& 3 = a % 4 := by
  have h := Nat.and_pow_two_sub_one_eq_mod a 2
  norm_num at h
  exact h

theorem and_shift_one_ne_iff (list i : Nat) :
    (list &&& (1 <<< i) ≠ 0) ↔ list.testBit i = true := by
  rw [Nat.shiftLeft_eq, one_mul, Nat.and_two_pow]
  rcases h : list.testBit i with _ | _ <;> simp [h]

theorem bits_between_self (list k : Nat) : bits_between list k k = 0 := by
  simp [bits_between]

theorem bits_between_ge (list k i : Nat) (h : i ≤ k) : bits_between list k i = 0 := by
  unfold bits_between
  rw [Nat.sub_eq_zero_of_le h]
  simp

theorem bits_between_step (list k i : Nat) (h : k < i) :
    bits_between list k i =
      (if list.testBit k then 1 else 0) + bits_between list (k + 1) i := by
  unfold bits_between
  rw [show i - k = (i - (k + 1)) + 1 by omega]
  rw [List.range'_succ]
  rw [List.countP_cons]
  rcases hb : list.testBit k with _ | _ <;> simp [hb] <;> omega

/-- The write performed by a non-user-bank LDM loop iteration for a
register below 15: a plain update of the mode-resolved physical slot. -/
theorem set32_v5_eq (s : arm_state_t) (i v : Nat) (hi : i < 15) :
    a32_register_set32_interworking_v5 s i v =
      { s with r := updR s.r (a32_register_mode_idx s i s.pstate.mode) (u32 v) } := by
  have hmask : i &&& 0xF = i := by
    have h := Nat.and_pow_two_sub_one_eq_mod i 4
    norm_num at h
    omega
  have hne : ¬ (i = A32_PC_NUM) := by
    unfold A32_PC_NUM
    omega
  unfold a32_register_set32_interworking_v5 a32_register_set32
    a32_register_set32_interworking a32_register_mode_set
  by_cases hv : s.version < ARMV5 <;> simp [hv, hmask, hne]

/-- `a32_read32` depends only on the memory, the SCTLR and the PSTATE. -/
theorem a32_read32_congr (s s' : arm_state_t) (a : Nat)
    (hm : s'.memory = s.memory) (hs : s'.sctlr_el1 = s.sctlr_el1)
    (hp : s'.pstate = s.pstate) : a32_read32 s' a = a32_read32 s a := by
  unfold a32_read32 a32_get_data_endianness arm_is_privileged_mode
  rw [hm, hs, hp]

theorem a32_read32_u32 (s : arm_state_t) (a : Nat) :
    a32_read32 s (u32 a) = a32_read32 s a := by
  unfold a32_read32
  rw [show u32 (u32 a) = u32 a by unfold u32; omega]

theorem memReadBytes_bytes_lt (m : memory_interface_t) (a n : Nat) (p : Bool)
    (b : List Nat) (h : memReadBytes m a n p = some b) : ∀ x ∈ b, x < 256 := by
  unfold memReadBytes at h
  split_ifs at h with hv
  cases h
  intro x hx
  rcases List.mem_map.1 hx with ⟨i, _, rfl⟩
  exact Nat.mod_lt _ (by norm_num)

theorem getD_lt_of_all (b : List Nat) (i : Nat) (h : ∀ x ∈ b, x < 256) :
    b.getD i 0 < 256 := by
  rcases hlen : b.getD i 0 with _ | n
  · norm_num
  · rw [← hlen]
    rcases Nat.lt_or_ge i b.length with hi | hi
    · rw [List.getD_eq_getElem b 0 hi]
      exact h _ (List.getElem_mem hi)
    · rw [List.getD_eq_default b 0 hi]
      norm_num

theorem le32_parse_lt (b : List Nat) (h : ∀ x ∈ b, x < 256) :
    le32_parse b < 4294967296 := by
  unfold le32_parse
  have h0 := getD_lt_of_all b 0 h
  have h1 := getD_lt_of_all b 1 h
  have h2 := getD_lt_of_all b 2 h
  have h3 := getD_lt_of_all b 3 h
  omega

theorem be32_parse_lt (b : List Nat) (h : ∀ x ∈ b, x < 256) :
    be32_parse b < 4294967296 := by
  unfold be32_parse
  have h0 := getD_lt_of_all b 0 h
  have h1 := getD_lt_of_all b 1 h
  have h2 := getD_lt_of_all b 2 h
  have h3 := getD_lt_of_all b 3 h
  omega

theorem memory_read_bytes32_bytes_lt (m : memory_interface_t) (a e : Nat) (p : Bool)
    (b : List Nat) (h : memory_read_bytes32 m a e p = some b) : ∀ x ∈ b, x < 256 := by
  unfold memory_read_bytes32 at h
  dsimp only [] at h
  split_ifs at h with h1 h2
  · exact memReadBytes_bytes_lt _ _ _ _ _ h
  · exact memReadBytes_bytes_lt _ _ _ _ _ h
  · rcases hhi : memReadBytes m (u32 a &&& 4294967292) (4 - (u32 a &&& 3)) p with _ | hi
    · rw [hhi] at h
      simp at h
    · rw [hhi] at h
      rcases hlo : memReadBytes m (u32 (u32 a + 8 - ((u32 a &&& 3) <<< 1)))
          (u32 a &&& 3) p with _ | lo
      · rw [hlo] at h
        simp at h
      · rw [hlo] at h
        simp only [Option.some.injEq] at h
        intro x hx
        rw [← h] at hx
        rcases List.mem_append.1 hx with hx2 | hx2
        · exact memReadBytes_bytes_lt _ _ _ _ _ hlo x hx2
        · exact memReadBytes_bytes_lt _ _ _ _ _ hhi x hx2

theorem a32_read32_lt (s : arm_state_t) (a v : Nat)
    (h : a32_read32 s a = .ok v) : v < 4294967296 := by
  unfold a32_read32 at h
  rcases hm : memory_read32 s.memory (u32 a) (a32_get_data_endianness s)
      (arm_is_privileged_mode s) with _ | w <;> rw [hm] at h
  · cases h
  · cases h
    unfold memory_read32 at hm
    rcases hb : memory_read_bytes32 s.memory (u32 a) (a32_get_data_endianness s)
        (arm_is_privileged_mode s) with _ | b <;> rw [hb] at hm
    · cases hm
    · cases hm
      have hlt := memory_read_bytes32_bytes_lt _ _ _ _ _ hb
      split
      · exact be32_parse_lt b hlt
      · exact le32_parse_lt b hlt

/-! ## Monad and register-accessor helper lemmas for C4 -/

theorem except_pure_bind {ε α β : Type} (a : α) (f : α → Except ε β) :
    (pure a : Except ε α) >>= f = f a := rfl

theorem except_bind_ok_inv {ε α β : Type} (x : Except ε α) (f : α → Except ε β) (b : β)
    (h : x >>= f = .ok b) : ∃ a, x = .ok a ∧ f a = .ok b := by
  rcases x with e | a
  · rw [except_bind_error] at h
    cases h
  · rw [except_bind_ok] at h
    exact ⟨a, rfl, h⟩

theorem if_false_bool {α : Sort _} (a b : α) : (if (false : Bool) = true then a else b) = b := rfl

theorem ite_r (c : Prop) [Decidable c] (a b : arm_state_t) :
    (if c then a else b).r = if c then a.r else b.r := by
  split <;> rfl

theorem u32_u32 (a : Nat) : u32 (u32 a) = u32 a := by
  unfold u32
  omega

theorem and_mask32_lt (x : Nat) : x &&& 0xFFFFFFFF < 4294967296 :=
  Nat.lt_of_le_of_lt Nat.and_le_right (by norm_num)

theorem and_mask32_eq_u32 (x : Nat) : x &&& 0xFFFFFFFF = u32 x := by
  have h := Nat.and_pow_two_sub_one_eq_mod x 32
  norm_num at h
  exact h

theorem and_0xF_eq (i : Nat) (h : i < 16) : i &&& 0xF = i := by
  have h2 := Nat.and_pow_two_sub_one_eq_mod i 4
  norm_num at h2
  omega

theorem a32_register_mode_idx_congr (s s' : arm_state_t) (i m : Nat)
    (hv : s'.version = s.version) :
    a32_register_mode_idx s' i m = a32_register_mode_idx s i m := by
  unfold a32_register_mode_idx
  rw [hv]

/-- For a register below 15 the read accessor is the raw physical slot
truncated to 32 bits (the PC special case does not fire). -/
theorem a32_register_get32_eq (s : arm_state_t) (i : Nat) (h : i < 15) :
    a32_register_get32 s i = u32 (s.r (a32_register_mode_idx s i s.pstate.mode)) := by
  unfold a32_register_get32 a32_register_mode_get
  dsimp only []
  rw [and_0xF_eq i (by omega)]
  rw [if_neg (by unfold A32_PC_NUM; omega)]
  exact and_mask32_eq_u32 _

theorem a32_register_get32_lt (s : arm_state_t) (i : Nat) :
    a32_register_get32 s i < 4294967296 := by
  unfold a32_register_get32 a32_register_mode_get
  dsimp only []
  split_ifs <;> first
    | exact u32_lt _
    | exact and_mask32_lt _

theorem a32_register_get32_lhs_eq (s : arm_state_t) (i : Nat) (h : i < 15) :
    a32_register_get32_lhs s i = a32_register_get32 s i := by
  unfold a32_register_get32_lhs
  dsimp only []
  rw [and_0xF_eq i (by omega)]
  rw [if_neg (by
    simp only [Bool.and_eq_true, decide_eq_true_eq, A32_PC_NUM]
    omega)]

/-- For a register below 15 the write accessor is a plain update of the
mode-resolved physical slot. -/
theorem a32_register_set32_eq (s : arm_state_t) (i v : Nat) (h : i < 15) :
    a32_register_set32 s i v =
      { s with r := updR s.r (a32_register_mode_idx s i s.pstate.mode) (u32 v) } := by
  unfold a32_register_set32 a32_register_mode_set
  dsimp only []
  rw [and_0xF_eq i (by omega)]
  rw [if_neg (by unfold A32_PC_NUM; omega)]

theorem stm_value_congr (s s' : arm_state_t) (hr : s'.r = s.r) (hp : s'.pstate = s.pstate)
    (hv : s'.version = s.version) (i : Nat) :
    stm_value s' false i = stm_value s false i := by
  unfold stm_value a32_register_get32_lhs a32_register_get32 a32_register_mode_get
    a32_register_mode_idx a26_get_pc a32_get_stored_pc_displacement
  rw [hr, hp, hv]

theorem stm_value_eq_lhs (s : arm_state_t) (i : Nat) (h : i < 15) :
    stm_value s false i = a32_register_get32_lhs s i := by
  unfold stm_value
  dsimp only []
  rw [if_false_bool]
  rw [if_neg (by unfold A32_PC_NUM; omega)]

/-! ## Population-count bounds for C4 -/

theorem count_bits16_loop_le : ∀ (fuel v : Nat), count_bits16_loop fuel v ≤ fuel := by
  intro fuel
  induction fuel with
  | zero =>
      intro v
      simp [count_bits16_loop]
  | succ fuel ih =>
      intro v
      unfold count_bits16_loop
      split_ifs
      · omega
      · have h1 : v &&& 1 ≤ 1 := Nat.and_le_right
        have h2 := ih (v >>> 1)
        omega

theorem count_bits16_loop_pos : ∀ (fuel v : Nat), v ≠ 0 → v < 2 ^ fuel →
    1 ≤ count_bits16_loop fuel v := by
  intro fuel
  induction fuel with
  | zero =>
      intro v h0 hlt
      norm_num at hlt
      omega
  | succ fuel ih =>
      intro v h0 hlt
      unfold count_bits16_loop
      rw [if_neg h0]
      have hand : v &&& 1 = v % 2 := Nat.and_one_is_mod v
      have hsh : v >>> 1 = v / 2 := by
        rw [Nat.shiftRight_eq_div_pow]
      by_cases hv : v &&& 1 = 0
      · have hrec : 1 ≤ count_bits16_loop fuel (v >>> 1) := by
          apply ih
          · rw [hsh]
            omega
          · rw [hsh]
            have hp : (2 : Nat) ^ (fuel + 1) = 2 ^ fuel * 2 := pow_succ 2 fuel
            omega
        omega
      · omega

theorem count_bits16_bounds (list rn : Nat) (h : list.testBit rn = true) (hrn : rn < 16) :
    1 ≤ count_bits16 list ∧ count_bits16 list ≤ 16 := by
  constructor
  · apply count_bits16_loop_pos
    · have h2 : (list % 65536).testBit rn = true := by
        rw [show (65536 : Nat) = 2 ^ 16 by norm_num, Nat.testBit_mod_two_pow]
        simp [hrn, h]
      intro h0
      rw [h0] at h2
      simp [Nat.zero_testBit] at h2
    · show list % 65536 < 2 ^ 16
      norm_num
      omega
  · exact count_bits16_loop_le _ _

/-! ## Lowest-listed-register characterization for C4 -/

theorem lowest_mask_iff (list rn : Nat) (hbit : list.testBit rn = true) :
    (list &&& ((1 <<< (rn + 1)) - 1) = 1 <<< rn) ↔
      (∀ j, j < rn → list.testBit j = false) := by
  rw [Nat.shiftLeft_eq, Nat.shiftLeft_eq, one_mul, one_mul]
  constructor
  · intro h j hj
    have h3 := congrArg (fun x => Nat.testBit x j) h
    simp only [Nat.testBit_and, Nat.testBit_two_pow_sub_one, Nat.testBit_two_pow] at h3
    have h1 : decide (j < rn + 1) = true := by
      simp
      omega
    have h2 : decide (rn = j) = false := by
      simp
      omega
    rw [h1, h2, Bool.and_true] at h3
    exact h3
  · intro h
    apply Nat.eq_of_testBit_eq
    intro j
    simp only [Nat.testBit_and, Nat.testBit_two_pow_sub_one, Nat.testBit_two_pow]
    rcases Nat.lt_trichotomy j rn with hj | hj | hj
    · rw [h j hj]
      simp
      omega
    · subst hj
      rw [hbit]
      simp
    · have h1 : decide (j < rn + 1) = false := by
        simp
        omega
      have h2 : decide (rn = j) = false := by
        simp
        omega
      rw [h1, h2, Bool.and_false]

/-! ## Shared address-setup properties for C4 -/

theorem a32_align_or_mask_3_aligned (s : arm_state_t) (a r : Nat)
    (h : a32_align_or_mask s a 3 = .ok r) : r &&& 3 = 0 := by
  unfold a32_align_or_mask at h
  split_ifs at h with h1 h2 h3 h4
  all_goals cases h
  all_goals try omega
  rw [(show (4294967295 - 3 : Nat) = 4294967292 by norm_num), Nat.and_assoc,
    (show (4294967292 &&& 3 : Nat) = 0 by decide), Nat.and_zero]

theorem a32_block_setup_props (s : arm_state_t) (list rn : Nat) (up cb : Bool)
    (setup : Nat × Nat) (h : a32_block_setup s list rn up cb = .ok setup) :
    setup.1 &&& 3 = 0 ∧
    setup.2 = (if up then u32 (a32_register_get32 s rn + (count_bits16 list <<< 2))
      else sub32 (sub32 (a32_register_get32 s rn) (sub32 (count_bits16 list <<< 2) 4)) 4) := by
  unfold a32_block_setup at h
  dsimp only [] at h
  cases up <;> cases cb <;>
    simp only [Bool.false_eq_true, if_false, if_true] at h ⊢ <;>
    · obtain ⟨a3, ha3, hf⟩ := except_bind_ok_inv _ _ _ h
      cases hf
      exact ⟨a32_align_or_mask_3_aligned _ _ _ ha3, rfl⟩

/-! ## Aligned 32-bit store/load lemmas for C4 -/

theorem memWriteBytes_some (m : memory_interface_t) (addr : Nat) (data : List Nat) (p : Bool)
    (m1 : memory_interface_t) (h : memWriteBytes m addr data p = some m1) :
    ((List.range data.length).all fun i => m.valid (addr + i) p) = true ∧
    m1.valid = m.valid ∧
    (∀ a, m1.bytes a =
      if addr ≤ a ∧ a < addr + data.length then data.getD (a - addr) 0 else m.bytes a) := by
  unfold memWriteBytes at h
  split_ifs at h with hv
  cases h
  exact ⟨hv, rfl, fun a => rfl⟩

theorem write_bytes32_aligned (m : memory_interface_t) (a : Nat) (data : List Nat) (e : Nat)
    (p : Bool) (ha : a &&& 3 = 0) (ha32 : a < 4294967296) :
    memory_write_bytes32 m a data e p = memWriteBytes m a data p := by
  unfold memory_write_bytes32
  dsimp only []
  rw [u32_of_lt ha32]
  by_cases h1 : e ≠ ARM_ENDIAN_SWAPPED
  · rw [if_pos h1]
  · rw [if_neg h1, if_pos ha]

theorem read_bytes32_aligned (m : memory_interface_t) (a e : Nat) (p : Bool)
    (ha : a &&& 3 = 0) (ha32 : a < 4294967296) :
    memory_read_bytes32 m a e p = memReadBytes m a 4 p := by
  unfold memory_read_bytes32
  dsimp only []
  rw [u32_of_lt ha32]
  by_cases h1 : e ≠ ARM_ENDIAN_SWAPPED
  · rw [if_pos h1]
  · rw [if_neg h1, if_pos ha]

theorem memory_read32_eval (m : memory_interface_t) (a e : Nat) (p : Bool) (b : List Nat)
    (hb : memory_read_bytes32 m a e p = some b) :
    memory_read32 m a e p =
      some (if e = ARM_ENDIAN_BIG then be32_parse b else le32_parse b) := by
  unfold memory_read32
  rw [hb]

theorem memReadBytes_eval (m : memory_interface_t) (addr n : Nat) (p : Bool)
    (hv : ((List.range n).all fun i => m.valid (addr + i) p) = true) :
    memReadBytes m addr n p = some ((List.range n).map fun i => m.bytes (addr + i) % 256) := by
  unfold memReadBytes
  rw [if_pos hv]

/-- A successful aligned 32-bit store can be read back (it round-trips
through the endianness encode/decode pair), leaves the accessibility map
unchanged and does not touch any byte below the store address. -/
theorem memory_write32_read32 (m : memory_interface_t) (a v e : Nat) (p : Bool)
    (m1 : memory_interface_t) (ha : a &&& 3 = 0) (ha32 : a < 4294967296)
    (h : memory_write32 m a v e p = some m1) :
    memory_read32 m1 a e p = some (u32 v) ∧ m1.valid = m.valid ∧
    (∀ x, x < a → m1.bytes x = m.bytes x) := by
  unfold memory_write32 at h
  rw [write_bytes32_aligned m a _ e p ha ha32] at h
  obtain ⟨hvalid, hval, hbytes⟩ := memWriteBytes_some _ _ _ _ _ h
  refine ⟨?_, hval, ?_⟩
  · have hlen : (if e = ARM_ENDIAN_BIG then be32_of (u32 v) else le32_of (u32 v)).length = 4 := by
      split_ifs <;> rfl
    have hva : ((List.range 4).all fun i => m1.valid (a + i) p) = true := by
      rw [hval]
      rw [hlen] at hvalid
      exact hvalid
    have hrb : memory_read_bytes32 m1 a e p =
        some ((List.range 4).map fun i => m1.bytes (a + i) % 256) := by
      rw [read_bytes32_aligned m1 a e p ha ha32]
      exact memReadBytes_eval _ _ _ _ hva
    rw [memory_read32_eval m1 a e p _ hrb]
    have hbyte : ∀ i, i < 4 →
        m1.bytes (a + i) = (if e = ARM_ENDIAN_BIG then be32_of (u32 v)
          else le32_of (u32 v)).getD i 0 := by
      intro i hi
      rw [hbytes (a + i)]
      rw [hlen]
      rw [if_pos ⟨Nat.le_add_right _ _, by omega⟩]
      congr 1
      omega
    rw [(show List.range 4 = [0, 1, 2, 3] by decide)]
    simp only [List.map_cons, List.map_nil]
    rw [hbyte 0 (by norm_num), hbyte 1 (by norm_num), hbyte 2 (by norm_num),
      hbyte 3 (by norm_num)]
    have hu := u32_lt v
    by_cases he : e = ARM_ENDIAN_BIG
    · simp only [if_pos he]
      unfold be32_of be32_parse u32 at *
      simp only [List.getD_cons_zero, List.getD_cons_succ, Option.some.injEq]
      omega
    · simp only [if_neg he]
      unfold le32_of le32_parse u32 at *
      simp only [List.getD_cons_zero, List.getD_cons_succ, Option.some.injEq]
      omega
  · intro x hx
    rw [hbytes x]
    rw [if_neg]
    rintro ⟨hax, _⟩
    omega

/-- `a32_write32` at an aligned in-range address: read-back plus full
preservation of everything except the four stored bytes. -/
theorem a32_write32_step (s : arm_state_t) (a v : Nat) (s1 : arm_state_t)
    (ha : a &&& 3 = 0) (ha32 : a < 4294967296)
    (h : a32_write32 s a v = .ok s1) :
    a32_read32 s1 a = .ok (u32 v) ∧ s1.r = s.r ∧ s1.pstate = s.pstate ∧
    s1.version = s.version ∧ s1.sctlr_el1 = s.sctlr_el1 ∧
    s1.memory.valid = s.memory.valid ∧
    (∀ x, x < a → s1.memory.bytes x = s.memory.bytes x) := by
  unfold a32_write32 at h
  rw [u32_of_lt ha32] at h
  rcases hw : memory_write32 s.memory a (u32 v) (a32_get_data_endianness s)
      (arm_is_privileged_mode s) with _ | m1
  · rw [hw] at h
    cases h
  · rw [hw] at h
    cases h
    obtain ⟨hr, hval, hpres⟩ := memory_write32_read32 _ _ _ _ _ _ ha ha32 hw
    refine ⟨?_, rfl, rfl, rfl, rfl, hval, hpres⟩
    unfold a32_read32
    rw [u32_of_lt ha32]
    have he : a32_get_data_endianness { s with memory := m1 } = a32_get_data_endianness s := rfl
    have hp : arm_is_privileged_mode { s with memory := m1 } = arm_is_privileged_mode s := rfl
    rw [he, hp]
    rw [u32_u32] at hr
    rw [(show ({ s with memory := m1 } : arm_state_t).memory = m1 from rfl), hr]

/-- Two states that agree on the PSTATE, the SCTLR, the accessibility
map and every byte of an aligned word perform the same 32-bit read of
that word. -/
theorem a32_read32_agree (s s' : arm_state_t) (a : Nat) (ha : a &&& 3 = 0)
    (ha32 : a < 4294967296)
    (hp : s'.pstate = s.pstate) (hs : s'.sctlr_el1 = s.sctlr_el1)
    (hv : s'.memory.valid = s.memory.valid)
    (hb : ∀ x, x < a + 4 → s'.memory.bytes x = s.memory.bytes x) :
    a32_read32 s' a = a32_read32 s a := by
  unfold a32_read32
  have he : a32_get_data_endianness s' = a32_get_data_endianness s := by
    unfold a32_get_data_endianness
    rw [hp, hs]
  have hpr : arm_is_privileged_mode s' = arm_is_privileged_mode s := by
    unfold arm_is_privileged_mode
    rw [hp]
  rw [he, hpr, u32_of_lt ha32]
  unfold memory_read32
  rw [read_bytes32_aligned _ _ _ _ ha ha32, read_bytes32_aligned _ _ _ _ ha ha32]
  unfold memReadBytes
  rw [hv]
  have hmap : ((List.range 4).map fun i => s'.memory.bytes (a + i) % 256) =
      (List.range 4).map fun i => s.memory.bytes (a + i) % 256 := by
    apply List.map_congr_left
    intro i hi
    have hi4 : i < 4 := List.mem_range.mp hi
    rw [hb (a + i) (by omega)]
  rw [hmap]

/-! ## LDM/STM loop lemmas for C4 -/

theorem a32_ldm_loop_zero (list : Nat) (um : Bool) (s : arm_state_t) (address k : Nat) :
    a32_ldm_loop list um 0 s address k = .ok (s, address) := rfl

theorem a32_ldm_loop_succ (list : Nat) (um : Bool) (fuel : Nat) (s : arm_state_t)
    (address k : Nat) :
    a32_ldm_loop list um (fuel + 1) s address k =
      if list &&& (1 <<< k) ≠ 0 then
        match a32_read32 s address with
        | .error e => .error e
        | .ok v =>
            a32_ldm_loop list um fuel
              (if um then { s with r := updR s.r k v }
                else a32_register_set32_interworking_v5 s k v)
              (u32 (address + 4)) (k + 1)
      else a32_ldm_loop list um fuel s address (k + 1) := rfl

theorem a32_stm_loop_zero (list : Nat) (um : Bool) (s : arm_state_t) (address k : Nat) :
    a32_stm_loop list um 0 s address k = .ok (s, address) := rfl

theorem a32_stm_loop_succ (list : Nat) (um : Bool) (fuel : Nat) (s : arm_state_t)
    (address k : Nat) :
    a32_stm_loop list um (fuel + 1) s address k =
      if list &&& (1 <<< k) ≠ 0 then
        match a32_write32 s address (stm_value s um k) with
        | .error e => .error e
        | .ok s1 => a32_stm_loop list um fuel s1 (u32 (address + 4)) (k + 1)
      else a32_stm_loop list um fuel s address (k + 1) := rfl

/-- The non-user LDM register loop never touches a physical slot that no
listed register of the remaining range resolves to, and it preserves
everything outside the register file. -/
theorem a32_ldm_loop_pres (list : Nat) :
    ∀ (fuel k : Nat) (s : arm_state_t) (address : Nat) (out : arm_state_t × Nat) (p : Nat),
      k + fuel ≤ 15 →
      (∀ j, k ≤ j → j < k + fuel → a32_register_mode_idx s j s.pstate.mode ≠ p) →
      a32_ldm_loop list false fuel s address k = .ok out →
      out.1.r p = s.r p ∧ out.1.pstate = s.pstate ∧ out.1.memory = s.memory ∧
      out.1.sctlr_el1 = s.sctlr_el1 ∧ out.1.version = s.version := by
  intro fuel
  induction fuel with
  | zero =>
      intro k s address out p hle hp hok
      rw [a32_ldm_loop_zero] at hok
      cases hok
      exact ⟨rfl, rfl, rfl, rfl, rfl⟩
  | succ fuel ih =>
      intro k s address out p hle hp hok
      rw [a32_ldm_loop_succ] at hok
      simp only [if_false_bool] at hok
      by_cases hbitk : list &&& (1 <<< k) ≠ 0
      · rw [if_pos hbitk] at hok
        split at hok
        · cases hok
        · rename_i v hv
          rw [set32_v5_eq s k v (by omega)] at hok
          obtain ⟨h1, h2, h3, h4, h5⟩ := ih (k + 1)
            { s with r := updR s.r (a32_register_mode_idx s k s.pstate.mode) (u32 v) }
            (u32 (address + 4)) out p (by omega)
            (fun j hj1 hj2 => hp j (by omega) (by omega))
            hok
          have hne : p ≠ a32_register_mode_idx s k s.pstate.mode :=
            Ne.symm (hp k (Nat.le_refl k) (by omega))
          refine ⟨?_, h2, h3, h4, h5⟩
          rw [h1]
          simp only [updR]
          rw [if_neg hne]
      · rw [if_neg hbitk] at hok
        exact ih (k + 1) s address out p (by omega)
          (fun j hj1 hj2 => hp j (by omega) (by omega)) hok

/-- Running the non-user LDM register loop over a range containing the
listed register `rn` loads the physical slot of `rn` from the word at
offset `4 * bits_between list k rn` of the running address, and
preserves the non-register state. -/
theorem a32_ldm_loop_rn (list rn : Nat) (hrn : rn < 15) (hbit : list.testBit rn = true) :
    ∀ (fuel k : Nat) (s : arm_state_t) (address : Nat) (out : arm_state_t × Nat),
      k + fuel = 15 → k ≤ rn →
      (∀ j, j < 15 → j ≠ rn →
        a32_register_mode_idx s j s.pstate.mode ≠ a32_register_mode_idx s rn s.pstate.mode) →
      a32_ldm_loop list false fuel s address k = .ok out →
      ∃ v, a32_read32 s (u32 (address + 4 * bits_between list k rn)) = .ok v ∧
        out.1.r (a32_register_mode_idx s rn s.pstate.mode) = u32 v ∧
        out.1.pstate = s.pstate ∧ out.1.memory = s.memory ∧
        out.1.sctlr_el1 = s.sctlr_el1 ∧ out.1.version = s.version := by
  intro fuel
  induction fuel with
  | zero =>
      intro k s address out hke hkr hinj hok
      omega
  | succ fuel ih =>
      intro k s address out hke hkr hinj hok
      rw [a32_ldm_loop_succ] at hok
      simp only [if_false_bool] at hok
      by_cases hbitk : list &&& (1 <<< k) ≠ 0
      · rw [if_pos hbitk] at hok
        split at hok
        · cases hok
        · rename_i v hv
          rw [set32_v5_eq s k v (by omega)] at hok
          by_cases hkrn : k = rn
          · subst hkrn
            obtain ⟨h1, h2, h3, h4, h5⟩ := a32_ldm_loop_pres list fuel (k + 1)
              { s with r := updR s.r (a32_register_mode_idx s k s.pstate.mode) (u32 v) }
              (u32 (address + 4)) out (a32_register_mode_idx s k s.pstate.mode)
              (by omega)
              (fun j hj1 hj2 => hinj j (by omega) (by omega))
              hok
            refine ⟨v, ?_, ?_, h2, h3, h4, h5⟩
            · rw [bits_between_self, (show address + 4 * 0 = address by omega), a32_read32_u32]
              exact hv
            · rw [h1]
              simp [updR]
          · have hklt : k < rn := by omega
            obtain ⟨w, hw1, hw2, hw3, hw4, hw5, hw6⟩ := ih (k + 1)
              { s with r := updR s.r (a32_register_mode_idx s k s.pstate.mode) (u32 v) }
              (u32 (address + 4)) out (by omega) (by omega) hinj hok
            refine ⟨w, ?_, hw2, hw3, hw4, hw5, hw6⟩
            have hbk : list.testBit k = true := (and_shift_one_ne_iff list k).1 hbitk
            have hstep : bits_between list k rn = 1 + bits_between list (k + 1) rn := by
              rw [bits_between_step list k rn hklt, hbk]
              simp
            rw [hstep]
            rw [(show address + 4 * (1 + bits_between list (k + 1) rn)
              = (address + 4) + 4 * bits_between list (k + 1) rn by ring)]
            rw [← u32_add_left]
            rw [← a32_read32_congr s
              { s with r := updR s.r (a32_register_mode_idx s k s.pstate.mode) (u32 v) }
              _ rfl rfl rfl]
            exact hw1
      · rw [if_neg hbitk] at hok
        have hbk : list.testBit k = false := by
          by_contra hc
          exact hbitk ((and_shift_one_ne_iff list k).2 (by
            revert hc
            cases list.testBit k <;> simp))
        have hkne : k ≠ rn := fun hE => by
          rw [hE, hbit] at hbk
          cases hbk
        obtain ⟨w, hw1, hw2, hw3, hw4, hw5, hw6⟩ :=
          ih (k + 1) s address out (by omega) (by omega) hinj hok
        refine ⟨w, ?_, hw2, hw3, hw4, hw5, hw6⟩
        have hstep : bits_between list k rn = bits_between list (k + 1) rn := by
          rw [bits_between_step list k rn (by omega), hbk]
          simp
        rw [hstep]
        exact hw1

/-- The STM register loop (non-user) preserves the register file, the
non-memory state, the accessibility map and every byte below the first
store address. -/
theorem a32_stm_loop_pres (list : Nat) :
    ∀ (fuel k : Nat) (s : arm_state_t) (address : Nat) (out : arm_state_t × Nat),
      address &&& 3 = 0 → address + 4 * fuel < 4294967296 →
      a32_stm_loop list false fuel s address k = .ok out →
      out.1.r = s.r ∧ out.1.pstate = s.pstate ∧ out.1.version = s.version ∧
      out.1.sctlr_el1 = s.sctlr_el1 ∧ out.1.memory.valid = s.memory.valid ∧
      (∀ x, x < address → out.1.memory.bytes x = s.memory.bytes x) := by
  intro fuel
  induction fuel with
  | zero =>
      intro k s address out hal hnw hok
      rw [a32_stm_loop_zero] at hok
      cases hok
      exact ⟨rfl, rfl, rfl, rfl, rfl, fun x _ => rfl⟩
  | succ fuel ih =>
      intro k s address out hal hnw hok
      rw [a32_stm_loop_succ] at hok
      by_cases hbitk : list &&& (1 <<< k) ≠ 0
      · rw [if_pos hbitk] at hok
        split at hok
        · cases hok
        · rename_i s1 hw
          obtain ⟨hrd, hr1, hp1, hv1, hs1, hval1, hby1⟩ :=
            a32_write32_step s address _ s1 hal (by omega) hw
          have hu4 : u32 (address + 4) = address + 4 := u32_of_lt (by omega)
          rw [hu4] at hok
          have hal4 : (address + 4) &&& 3 = 0 := by
            rw [and3_eq_mod4] at hal ⊢
            omega
          obtain ⟨g1, g2, g3, g4, g5, g6⟩ := ih (k + 1) s1 (address + 4) out hal4 (by omega) hok
          refine ⟨g1.trans hr1, g2.trans hp1, g3.trans hv1, g4.trans hs1, g5.trans hval1, ?_⟩
          intro x hx
          rw [g6 x (by omega), hby1 x hx]
      · rw [if_neg hbitk] at hok
        exact ih (k + 1) s address out hal (by omega) hok

/-- After the STM loop runs over a range containing the listed `rn`, the
word at offset `4 * bits_between list k rn` of the final memory reads
back as the value `rn` had in the loop's entry state. -/
theorem a32_stm_loop_rn (list rn : Nat) (hbit : list.testBit rn = true) :
    ∀ (fuel k : Nat) (s : arm_state_t) (address : Nat) (out : arm_state_t × Nat),
      k ≤ rn → rn < k + fuel →
      address &&& 3 = 0 → address + 4 * fuel < 4294967296 →
      a32_stm_loop list false fuel s address k = .ok out →
      a32_read32 out.1 (address + 4 * bits_between list k rn) =
        .ok (u32 (stm_value s false rn)) := by
  intro fuel
  induction fuel with
  | zero =>
      intro k s address out hk1 hk2 hal hnw hok
      omega
  | succ fuel ih =>
      intro k s address out hk1 hk2 hal hnw hok
      rw [a32_stm_loop_succ] at hok
      by_cases hbitk : list &&& (1 <<< k) ≠ 0
      · rw [if_pos hbitk] at hok
        split at hok
        · cases hok
        · rename_i s1 hw
          obtain ⟨hrd, hr1, hp1, hv1, hs1, hval1, hby1⟩ :=
            a32_write32_step s address _ s1 hal (by omega) hw
          have hu4 : u32 (address + 4) = address + 4 := u32_of_lt (by omega)
          rw [hu4] at hok
          have hal4 : (address + 4) &&& 3 = 0 := by
            rw [and3_eq_mod4] at hal ⊢
            omega
          by_cases hkrn : k = rn
          · subst hkrn
            rw [bits_between_self, (show address + 4 * 0 = address by omega)]
            obtain ⟨g1, g2, g3, g4, g5, g6⟩ :=
              a32_stm_loop_pres list fuel (k + 1) s1 (address + 4) out hal4 (by omega) hok
            rw [a32_read32_agree s1 out.1 address hal (by omega) g2 g4 g5 g6]
            exact hrd
          · have hbk : list.testBit k = true := (and_shift_one_ne_iff list k).1 hbitk
            have hstep : bits_between list k rn = 1 + bits_between list (k + 1) rn := by
              rw [bits_between_step list k rn (by omega), hbk]
              simp
            rw [hstep, (show address + 4 * (1 + bits_between list (k + 1) rn)
              = (address + 4) + 4 * bits_between list (k + 1) rn by ring)]
            have hrec := ih (k + 1) s1 (address + 4) out (by omega) (by omega) hal4
              (by omega) hok
            rw [hrec]
            rw [stm_value_congr s s1 hr1 hp1 hv1]
      · rw [if_neg hbitk] at hok
        have hbk : list.testBit k = false := by
          by_contra hc
          exact hbitk ((and_shift_one_ne_iff list k).2 (by
            revert hc
            cases list.testBit k <;> simp))
        have hkne : k ≠ rn := fun hE => by
          rw [hE, hbit] at hbk
          cases hbk
        have hstep : bits_between list k rn = bits_between list (k + 1) rn := by
          rw [bits_between_step list k rn (by omega), hbk]
          simp
        rw [hstep]
        exact ih (k + 1) s address out (by omega) (by omega) hal (by omega) hok

theorem if_true_bool {α : Sort _} (a b : α) : (if (true : Bool) = true then a else b) = a := rfl

/-- LDM with writeback and the base register listed: the base register's
physical slot ends up holding the word loaded from its list position
(the final writeback assignment is skipped), for any PC-free list. -/
theorem a32_ldm_rn_spec (s : arm_state_t) (list rn : Nat) (up cb ic : Bool) (s' : arm_state_t)
    (hrn : rn < 15) (hbit : list.testBit rn = true) (h15 : list &&& 32768 = 0)
    (hinj : a32_mode_inj s)
    (hok : a32_ldm s list rn up cb true ic = .ok s') :
    ∃ setup v,
      a32_block_setup s list rn up cb = .ok setup ∧
      a32_read32 s (u32 (setup.1 + 4 * bits_below list rn)) = .ok v ∧
      s'.r (a32_register_mode_idx s rn s.pstate.mode) = u32 v := by
  unfold a32_ldm at hok
  obtain ⟨setup, hsetup, hok⟩ := except_bind_ok_inv _ _ _ hok
  dsimp only [] at hok
  simp only [Bool.not_true, Bool.and_false] at hok
  obtain ⟨u, hchk, hok⟩ := except_bind_ok_inv _ _ _ hok
  try dsimp only [] at hok
  obtain ⟨out, hloop, hok⟩ := except_bind_ok_inv _ _ _ hok
  try dsimp only [] at hok
  rw [if_neg (show ¬ list &&& 32768 ≠ 0 by simp [h15])] at hok
  rw [except_pure_bind] at hok
  have hcc : list &&& (1 <<< rn) ≠ 0 := (and_shift_one_ne_iff list rn).2 hbit
  rw [if_neg (by simp [hcc])] at hok
  cases hok
  obtain ⟨v, hv1, hv2, _, _, _, _⟩ := a32_ldm_loop_rn list rn hrn hbit 15 0 s setup.1 out
    (by norm_num) (Nat.zero_le rn) (fun j hj hjne => hinj j hj rn hrn hjne) hloop
  exact ⟨setup, v, hsetup, hv1, hv2⟩

/-- STM with writeback and the base register listed: the word stored at
the base register's list position reads back as the pre-writeback value
exactly when the base register is the lowest listed register, and as the
written-back final address otherwise; the two values always differ. -/
theorem a32_stm_rn_spec (s : arm_state_t) (list rn : Nat) (up cb : Bool) (s' : arm_state_t)
    (setup : Nat × Nat) (hrn : rn < 15) (hbit : list.testBit rn = true)
    (hsetup : a32_block_setup s list rn up cb = .ok setup)
    (hnw : setup.1 + 64 < 4294967296)
    (hok : a32_stm s list rn up cb true false = .ok s') :
    a32_read32 s' (setup.1 + 4 * bits_below list rn) =
      .ok (if ∀ j, j < rn → list.testBit j = false
        then u32 (a32_register_get32_lhs s rn) else u32 setup.2) ∧
    u32 (a32_register_get32_lhs s rn) ≠ u32 setup.2 := by
  obtain ⟨hal, hfin⟩ := a32_block_setup_props s list rn up cb setup hsetup
  have hlhs : a32_register_get32_lhs s rn = a32_register_get32 s rn :=
    a32_register_get32_lhs_eq s rn hrn
  have hpre_lt : a32_register_get32 s rn < 4294967296 := a32_register_get32_lt s rn
  obtain ⟨hc1, hc16⟩ := count_bits16_bounds list rn hbit (by omega)
  have hsz : count_bits16 list <<< 2 = 4 * count_bits16 list := by
    rw [Nat.shiftLeft_eq]
    ring
  have hdiff : u32 (a32_register_get32_lhs s rn) ≠ u32 setup.2 := by
    rw [hlhs, u32_of_lt hpre_lt, hfin, hsz]
    rcases up with _ | _
    · rw [if_false_bool]
      unfold sub32 u32
      omega
    · rw [if_true_bool, u32_u32]
      unfold u32
      omega
  refine ⟨?_, hdiff⟩
  unfold a32_stm at hok
  obtain ⟨setup2, hsetup2, hok⟩ := except_bind_ok_inv _ _ _ hok
  rw [hsetup] at hsetup2
  cases hsetup2
  dsimp only [] at hok
  by_cases hlow : list &&& ((1 <<< (rn + 1)) - 1) = 1 <<< rn
  · have hcond : ∀ j, j < rn → list.testBit j = false := (lowest_mask_iff list rn hbit).1 hlow
    rw [if_pos hcond]
    have hb : decide (list &&& ((1 <<< (rn + 1)) - 1) = 1 <<< rn) = true := decide_eq_true hlow
    simp only [hb, Bool.not_true, Bool.false_and, Bool.and_true, Bool.and_self,
      if_false_bool, if_true_bool] at hok
    obtain ⟨u, hchk, hok⟩ := except_bind_ok_inv _ _ _ hok
    try dsimp only [] at hok
    obtain ⟨out, hloop, hok⟩ := except_bind_ok_inv _ _ _ hok
    try dsimp only [] at hok
    cases hok
    simp only [if_true]
    have hread := a32_stm_loop_rn list rn hbit 16 0 s setup.1 out (Nat.zero_le rn)
      (by omega) hal (by omega) hloop
    have hstep1 : a32_read32 (a32_register_set32 out.1 rn setup.2)
        (setup.1 + 4 * bits_below list rn) =
        a32_read32 out.1 (setup.1 + 4 * bits_below list rn) := by
      rw [a32_register_set32_eq out.1 rn setup.2 hrn]
      exact a32_read32_congr out.1 _ _ rfl rfl rfl
    rw [hstep1]
    unfold bits_below
    rw [hread, stm_value_eq_lhs s rn hrn]
  · have hcond : ¬ ∀ j, j < rn → list.testBit j = false :=
      fun hc => hlow ((lowest_mask_iff list rn hbit).2 hc)
    rw [if_neg hcond]
    have hb : decide (list &&& ((1 <<< (rn + 1)) - 1) = 1 <<< rn) = false := decide_eq_false hlow
    simp only [hb, Bool.not_false, Bool.true_and, Bool.and_true, Bool.and_self, Bool.false_and,
      if_true_bool, if_false_bool] at hok
    obtain ⟨u, hchk, hok⟩ := except_bind_ok_inv _ _ _ hok
    try dsimp only [] at hok
    obtain ⟨out, hloop, hok⟩ := except_bind_ok_inv _ _ _ hok
    try dsimp only [] at hok
    cases hok
    try simp only [if_false]
    have hread := a32_stm_loop_rn list rn hbit 16 0 (a32_register_set32 s rn setup.2) setup.1
      out (Nat.zero_le rn) (by omega) hal (by omega) hloop
    unfold bits_below
    rw [hread]
    have hsv : stm_value (a32_register_set32 s rn setup.2) false rn = u32 (u32 setup.2) := by
      rw [stm_value_eq_lhs _ rn hrn, a32_register_get32_lhs_eq _ rn hrn,
        a32_register_get32_eq _ rn hrn]
      rw [a32_register_set32_eq s rn setup.2 hrn]
      congr 1
      show updR s.r (a32_register_mode_idx s rn s.pstate.mode) (u32 setup.2)
        (a32_register_mode_idx s rn s.pstate.mode) = u32 setup.2
      simp [updR]
    rw [hsv]
    simp only [u32_u32]

/-- **C4.** For every LDM with base-register writeback whose (PC-free)
register list contains the base register Rn, Rn's physical slot ends up
holding exactly the word loaded from Rn's list position in memory — the
writeback value is never applied afterwards (the source skips the final
`a32_register_set32` whenever Rn is listed, emu.c line 4537).  For every
STM with writeback whose list contains Rn, the word stored at Rn's list
position reads back as the pre-writeback value of Rn precisely when Rn
is the lowest-numbered listed register, and as the written-back final
address otherwise (the source orders the writeback around the store loop
on `stack_register_is_lowest`, emu.c lines 4583-4615); the two candidate
values always differ, so the "iff" is genuine.  The STM side assumes the
transfer stays below the 2^32 address wrap. -/
theorem C4_ldm_stm_writeback_rn :
    (∀ (s : arm_state_t) (list rn : Nat) (up cb ic : Bool) (s' : arm_state_t),
      rn < 15 → list.testBit rn = true → list &&& 32768 = 0 → a32_mode_inj s →
      a32_ldm s list rn up cb true ic = .ok s' →
      ∃ setup v,
        a32_block_setup s list rn up cb = .ok setup ∧
        a32_read32 s (u32 (setup.1 + 4 * bits_below list rn)) = .ok v ∧
        s'.r (a32_register_mode_idx s rn s.pstate.mode) = u32 v) ∧
    (∀ (s : arm_state_t) (list rn : Nat) (up cb : Bool) (s' : arm_state_t) (setup : Nat × Nat),
      rn < 15 → list.testBit rn = true →
      a32_block_setup s list rn up cb = .ok setup →
      setup.1 + 64 < 4294967296 →
      a32_stm s list rn up cb true false = .ok s' →
      a32_read32 s' (setup.1 + 4 * bits_below list rn) =
        .ok (if ∀ j, j < rn → list.testBit j = false
          then u32 (a32_register_get32_lhs s rn) else u32 setup.2) ∧
      u32 (a32_register_get32_lhs s rn) ≠ u32 setup.2) :=
  ⟨fun s list rn up cb ic s' hrn hbit h15 hinj hok =>
      a32_ldm_rn_spec s list rn up cb ic s' hrn hbit h15 hinj hok,
    fun s list rn up cb s' setup hrn hbit hsetup hnw hok =>
      a32_stm_rn_spec s list rn up cb s' setup hrn hbit hsetup hnw hok⟩

/-- Witness for C4 at a concrete machine: `LDMIA r1!, {r1, r2}` and
`STMIA r1!, {r1, r2}` on `ldmStmState` (base r1 = 256), with every
hypothesis discharged by evaluation. -/
theorem C4_ldm_stm_writeback_rn_witness :
    (∃ s', a32_ldm ldmStmState 6 1 true false true false = .ok s' ∧
      ∃ setup v,
        a32_block_setup ldmStmState 6 1 true false = .ok setup ∧
        a32_read32 ldmStmState (u32 (setup.1 + 4 * bits_below 6 1)) = .ok v ∧
        s'.r (a32_register_mode_idx ldmStmState 1 ldmStmState.pstate.mode) = u32 v) ∧
    (∃ s' setup,
      a32_stm ldmStmState 6 1 true false true false = .ok s' ∧
      a32_block_setup ldmStmState 6 1 true false = .ok setup ∧
      setup.1 + 64 < 4294967296 ∧
      a32_read32 s' (setup.1 + 4 * bits_below 6 1) =
        .ok (u32 (a32_register_get32_lhs ldmStmState 1)) ∧
      u32 (a32_register_get32_lhs ldmStmState 1) ≠ u32 setup.2) := by
  constructor
  · exact ⟨_, rfl, C4_ldm_stm_writeback_rn.1 ldmStmState 6 1 true false false _
      (by norm_num) (by decide) (by decide) (by decide) rfl⟩
  · obtain ⟨hr, hd⟩ := C4_ldm_stm_writeback_rn.2 ldmStmState 6 1 true false _ _
      (by norm_num) (by decide) rfl (by decide) rfl
    rw [if_pos (show ∀ j, j < 1 → Nat.testBit 6 j = false from fun j hj => by
      have hj0 : j = 0 := by omega
      subst hj0
      rfl)] at hr
    exact ⟨_, _, rfl, rfl, by decide, hr, hd⟩
